import Mathlib

/-!
# AdversaryPilot — verification of the decision-engine spec

A shallow embedding of the AdversaryPilot decision engine (adaptive
Thompson-sampling planner, campaign state machine, snapshot/replay
subsystem, weakest-layer analyzer) in Lean 4, with theorems settling the
frozen claims about the natural-language specification.

Conventions:
* Python floats are modelled as exact rationals (`ℚ`); where the code
  computes `math.sqrt` and the claim is about real-valued quantities
  (the Wilson interval), reals with `Real.sqrt` are used instead.
* Python's `random.Random(seed).betavariate` is modelled by an explicit
  state-threaded sampler parameter `bv : σ → ℚ → ℚ → ℚ × σ` together
  with a seeding function `seedInit : ℕ → σ`: `betavariate` is a
  deterministic function of the generator state and the two Beta
  parameters, so every theorem quantified over `bv`/`seedInit` holds in
  particular for CPython's Mersenne-Twister implementation.
* `math.sqrt` inside the planner's confidence-interval helper is likewise
  a deterministic float function, modelled by a parameter `fsqrt : ℚ → ℚ`.
* Dictionaries keyed by strings are association lists; Python iteration
  order over the technique catalog is the list order.
-/

namespace AdversaryPilot

/-! ## Enumerations (models/enums.py) -/

/-- Type of system being targeted (`TargetType`). -/
inductive TargetType where
  | classifier | chatbot | rag | agent | moderation | embedding
  | multi_agent_system | mcp_client
  deriving DecidableEq, Repr

/-- Level of access available to the attacker (`AccessLevel`). -/
inductive AccessLevel where
  | white_box | gray_box | black_box
  deriving DecidableEq, Repr

/-- Attack domain (`Domain`). -/
inductive Domain where
  | aml | llm | agent
  deriving DecidableEq, Repr

/-- Attack surface / system layer (`Surface`). -/
inductive Surface where
  | model | data | retrieval | tool | action | guardrail
  deriving DecidableEq, Repr

/-- Attack lifecycle phase (`Phase`), strictly ordered
recon < probe < exploit < persistence < evaluation. -/
inductive Phase where
  | recon | probe | exploit | persistence | evaluation
  deriving DecidableEq, Repr

/-- `str()` value of a `Phase` member. -/
def Phase.value : Phase → String
  | .recon => "recon" | .probe => "probe" | .exploit => "exploit"
  | .persistence => "persistence" | .evaluation => "evaluation"

/-- Attacker objective (`Goal`). -/
inductive Goal where
  | evasion | jailbreak | exfil_sim | extraction | tool_misuse
  | poisoning | dos
  deriving DecidableEq, Repr

/-- Stealth profile (`StealthLevel`). -/
inductive StealthLevel where
  | overt | moderate | covert
  deriving DecidableEq, Repr

/-- Campaign exploration/exploitation phase (`CampaignPhase`). -/
inductive CampaignPhase where
  | probe | exploit
  deriving DecidableEq, Repr

/-- Campaign lifecycle status (`CampaignStatus`). -/
inductive CampaignStatus where
  | planning | active | paused | completed | aborted
  deriving DecidableEq, Repr

/-- `str()` value of a `Domain` member (StrEnum values). -/
def Domain.value : Domain → String
  | .aml => "aml" | .llm => "llm" | .agent => "agent"

/-- `str()` value of a `Surface` member (StrEnum values). -/
def Surface.value : Surface → String
  | .model => "model" | .data => "data" | .retrieval => "retrieval"
  | .tool => "tool" | .action => "action" | .guardrail => "guardrail"

/-- `str()` value of a `CampaignPhase` member. -/
def CampaignPhase.value : CampaignPhase → String
  | .probe => "probe" | .exploit => "exploit"

/-- `str()` value of a `TargetType` member. -/
def TargetType.value : TargetType → String
  | .classifier => "classifier" | .chatbot => "chatbot" | .rag => "rag"
  | .agent => "agent" | .moderation => "moderation" | .embedding => "embedding"
  | .multi_agent_system => "multi_agent_system" | .mcp_client => "mcp_client"

/-- `str()` value of a `Goal` member. -/
def Goal.value : Goal → String
  | .evasion => "evasion" | .jailbreak => "jailbreak"
  | .exfil_sim => "exfil_sim" | .extraction => "extraction"
  | .tool_misuse => "tool_misuse" | .poisoning => "poisoning" | .dos => "dos"

/-- All members of `Surface`, in declaration order (`for layer in Surface`). -/
def Surface.all : List Surface :=
  [.model, .data, .retrieval, .tool, .action, .guardrail]

/-! ## Small helpers -/

/-- Association-list lookup with a default, the model of `dict.get(k, d)`. -/
def lookupD (l : List (String × ℚ)) (k : String) (d : ℚ) : ℚ :=
  match l with
  | [] => d
  | (k', v) :: rest => if k' = k then v else lookupD rest k d

/-- `max lo (min hi x)`: clamp a rational into `[lo, hi]`. -/
def clampQ (lo hi x : ℚ) : ℚ := max lo (min hi x)

/-! ## Data model (models/technique.py, models/target.py, models/results.py)

Only the fields the decision engine reads are carried; every field below is
read somewhere in the embedded code. -/

/-- Immutable catalog entry (`AttackTechnique`). -/
structure AttackTechnique where
  id : String
  name : String
  domain : Domain
  phase : Phase
  surface : Surface
  access_required : AccessLevel
  goals_supported : List Goal
  target_types : List TargetType
  base_cost : ℚ
  stealth_profile : StealthLevel
  tags : List String
  deriving DecidableEq, Repr

/-- Known-defense bitfield (`DefenseProfile`). -/
structure DefenseProfile where
  has_moderation : Bool := false
  has_input_filtering : Bool := false
  has_output_filtering : Bool := false
  has_prompt_injection_detection : Bool := false
  has_schema_validation : Bool := false
  has_rate_limiting : Bool := false
  deriving DecidableEq, Repr

/-- Operational constraints (`ConstraintSpec`); `max_technique_cost` models the
`custom_constraints["max_technique_cost"]` entry read by `is_within_budget`. -/
structure ConstraintSpec where
  stealth_priority : StealthLevel := .moderate
  max_technique_cost : Option ℚ := none
  deriving DecidableEq, Repr

/-- Immutable description of what is being attacked (`TargetProfile`). -/
structure TargetProfile where
  name : String
  target_type : TargetType
  access_level : AccessLevel
  goals : List Goal
  defenses : DefenseProfile := {}
  constraints : ConstraintSpec := {}
  deriving DecidableEq, Repr

/-- Comparability metadata of an evaluation (`ComparabilityMetadata`);
`technique_id` defaults to the empty string exactly as in the model. -/
structure ComparabilityMetadata where
  technique_id : String := ""
  comparable_group_key : String := ""
  deriving DecidableEq, Repr

/-- Judged outcome of an attempt (`EvaluationResult`). `success = none`
models Python's `None` (inconclusive). -/
structure EvaluationResult where
  attempt_id : String
  success : Option Bool := none
  score : Option ℚ := none
  evidence_quality : ℚ := 0.5
  comparability : ComparabilityMetadata := {}
  deriving DecidableEq, Repr

/-- Raw output from an attack attempt (`AttemptResult`), reduced to the
fields the campaign manager reads. -/
structure AttemptResult where
  id : String
  technique_id : String
  deriving DecidableEq, Repr

/-! ## Rule-based scorers (prioritizer/scorers.py)

The shipped configuration file carries no `scorer_thresholds` override, so
each scorer is embedded with the `DEFAULT_THRESHOLDS` values inlined. -/

/-- `ACCESS_ORDER` from prioritizer/filters.py. -/
def ACCESS_ORDER : AccessLevel → ℕ
  | .black_box => 0
  | .gray_box => 1
  | .white_box => 2

/-- `score_compatibility`: how well the technique fits the target type. -/
def score_compatibility (t : AttackTechnique) (target : TargetProfile) : ℚ :=
  if t.target_types = [] then 0.5
  else if target.target_type ∈ t.target_types then 1.0
  else 0.0

/-- `score_access_fit`: higher when available access exactly matches. -/
def score_access_fit (t : AttackTechnique) (target : TargetProfile) : ℚ :=
  let available := ACCESS_ORDER target.access_level
  let required := ACCESS_ORDER t.access_required
  if available < required then 0.0
  else if available = required then 1.0
  else max 0.5 (1.0 - 0.2 * ((available : ℚ) - (required : ℚ)))

/-- `score_goal_fit`: fraction of target goals the technique supports. -/
def score_goal_fit (t : AttackTechnique) (target : TargetProfile) : ℚ :=
  if target.goals = [] then 0.5
  else if t.goals_supported = [] then 0.0
  else ((target.goals.dedup.filter (· ∈ t.goals_supported)).length : ℚ) /
    (target.goals.length : ℚ)

/-- `DEFENSE_SURFACE_MAP`: defense flag → protected surface, as an
extraction function on `DefenseProfile` (iteration order of the dict). -/
def defenseSurfacePairs (d : DefenseProfile) : List (Bool × Surface) :=
  [(d.has_moderation, .guardrail), (d.has_input_filtering, .guardrail),
   (d.has_output_filtering, .guardrail),
   (d.has_prompt_injection_detection, .model),
   (d.has_schema_validation, .tool), (d.has_rate_limiting, .model)]

/-- `score_defense_bypass_likelihood`: lower when active defenses protect
the technique's surface. -/
def score_defense_bypass_likelihood (t : AttackTechnique)
    (target : TargetProfile) : ℚ :=
  let pairs := (defenseSurfacePairs target.defenses).filter (·.2 = t.surface)
  let relevant := pairs.length
  let active := (pairs.filter (·.1 = true)).length
  if relevant = 0 then 0.8
  else max 0.1 (1.0 - ((active : ℚ) / (relevant : ℚ)) * 0.7)

/-- Technique ids appearing in prior results (`r.comparability.technique_id`
over all results; a `ComparabilityMetadata` instance is always truthy). -/
def triedTechniqueIds (prior_results : List EvaluationResult) : List String :=
  prior_results.map (·.comparability.technique_id)

/-- `score_signal_gain`: how much new information a technique provides.
0.7 with no priors at all; 1.0 if untried; 0.5 if at least one of the
technique's prior attempts was inconclusive; 0.1 otherwise. -/
def score_signal_gain (t : AttackTechnique)
    (prior_results : List EvaluationResult) : ℚ :=
  if prior_results = [] then 0.7
  else if t.id ∉ triedTechniqueIds prior_results then 1.0
  else
    let technique_results :=
      prior_results.filter (·.comparability.technique_id = t.id)
    let inconclusive := (technique_results.filter (·.success = none)).length
    if 0 < inconclusive then 0.5 else 0.1

/-- `score_cost_penalty`: the base cost directly. -/
def score_cost_penalty (t : AttackTechnique) : ℚ := t.base_cost

/-- `score_detection_risk_penalty`: stealth-profile penalty scaled by the
target's stealth priority. -/
def score_detection_risk_penalty (t : AttackTechnique)
    (target : TargetProfile) : ℚ :=
  if target.constraints.stealth_priority = .overt then 0.0
  else
    let technique_risk : ℚ :=
      match t.stealth_profile with
      | .overt => 1.0 | .moderate => 0.5 | .covert => 0.1
    if target.constraints.stealth_priority = .covert then technique_risk
    else technique_risk * 0.5

/-! ## Hard filters (prioritizer/filters.py) -/

/-- `is_target_type_compatible`. -/
def is_target_type_compatible (t : AttackTechnique) (target : TargetProfile) : Bool :=
  if t.target_types = [] then true else target.target_type ∈ t.target_types

/-- `is_access_sufficient`. -/
def is_access_sufficient (t : AttackTechnique) (target : TargetProfile) : Bool :=
  ACCESS_ORDER t.access_required ≤ ACCESS_ORDER target.access_level

/-- `is_within_budget`: reject if cost exceeds the custom budget constraint. -/
def is_within_budget (t : AttackTechnique) (target : TargetProfile) : Bool :=
  match target.constraints.max_technique_cost with
  | some max_cost => decide (t.base_cost ≤ max_cost)
  | none => true

/-- `is_goal_relevant`. -/
def is_goal_relevant (t : AttackTechnique) (target : TargetProfile) : Bool :=
  if target.goals = [] then true
  else (t.goals_supported.filter (· ∈ target.goals)) ≠ []

/-- `passes_all_filters`. -/
def passes_all_filters (t : AttackTechnique) (target : TargetProfile) : Bool :=
  is_target_type_compatible t target && is_access_sufficient t target &&
    is_within_budget t target && is_goal_relevant t target

/-! ## V1 engine scoring (prioritizer/engine.py)

The packaged `config.yaml` is not part of the provided sources; every weight
below is the in-code fallback the engine uses when the key is absent
(`w.get("compatibility", 1.0)` and so on), which also matches the defaults
of §6 of the design. -/

/-- Weighted total of `PrioritizerEngine.score_technique` (raw, unnormalized). -/
def score_technique_total (t : AttackTechnique) (target : TargetProfile)
    (prior_results : List EvaluationResult) : ℚ :=
  1.0 * score_compatibility t target
    + 0.8 * score_access_fit t target
    + 1.0 * score_goal_fit t target
    + 0.7 * score_defense_bypass_likelihood t target
    + 0.5 * score_signal_gain t prior_results
    - 0.4 * score_cost_penalty t
    - 0.3 * score_detection_risk_penalty t target

/-- `_compute_score_range`: `(lo, hi) = (−Σ penalty weights, Σ positive weights)`. -/
def score_range : ℚ × ℚ := (-(0.4 + 0.3), 1.0 + 0.8 + 1.0 + 0.7 + 0.5)

/-- `PrioritizerEngine.normalize_score`: clamp `(raw − lo)/(hi − lo)` to `[0,1]`. -/
def normalize_score (raw : ℚ) : ℚ :=
  let lo := score_range.1
  let hi := score_range.2
  let span := hi - lo
  if span ≤ 0 then 0.5 else max 0.0 (min 1.0 ((raw - lo) / span))

/-- `AdaptivePlanner._compute_v1_base_score`. -/
def compute_v1_base_score (t : AttackTechnique) (target : TargetProfile)
    (prior_results : List EvaluationResult) : ℚ :=
  normalize_score (score_technique_total t target prior_results)

/-! ## Benchmark priors (planner/priors.py) -/

/-- `BENCHMARK_ASR`: published attack-success-rate priors per family key. -/
def BENCHMARK_ASR : List (String × ℚ) :=
  [("llm:guardrail:jailbreak", 0.55), ("llm:guardrail:pair", 0.60),
   ("llm:guardrail:tap", 0.65), ("llm:guardrail:crescendo", 0.55),
   ("llm:guardrail:encoding", 0.40), ("llm:guardrail:multilingual", 0.45),
   ("llm:guardrail:persona", 0.50), ("llm:guardrail:few-shot", 0.50),
   ("llm:guardrail:prefix", 0.35), ("llm:guardrail:gcg", 0.25),
   ("llm:guardrail:injection", 0.50), ("llm:model:extraction", 0.30),
   ("llm:model:memorization", 0.35), ("agent:tool:agent", 0.35),
   ("agent:tool:injection", 0.40), ("agent:action:agent", 0.30),
   ("agent:data:agent", 0.35), ("rag:retrieval:rag", 0.40),
   ("rag:retrieval:injection", 0.45), ("rag:data:poisoning", 0.50),
   ("aml:model:adversarial-examples", 0.70), ("aml:model:evasion", 0.60),
   ("aml:model:poisoning", 0.55), ("aml:model:backdoor", 0.45),
   ("aml:model:inversion", 0.20), ("aml:model:membership-inference", 0.25),
   ("agent:action:a2a", 0.25), ("agent:tool:a2a", 0.30),
   ("agent:data:a2a", 0.25), ("agent:tool:mcp", 0.35),
   ("agent:tool:mcp-schema", 0.30), ("agent:tool:mcp-squat", 0.20),
   ("agent:action:delegation", 0.30), ("agent:data:memory-poisoning", 0.35),
   ("agent:data:observation", 0.25)]

/-- `get_benchmark_prior`: table lookup with 0.40 fallback, clamped to
`[0.05, 0.95]`. -/
def get_benchmark_prior (family_key : String) : ℚ :=
  clampQ 0.05 0.95 (lookupD BENCHMARK_ASR family_key 0.40)

/-! ## Posterior state (planner/posterior.py) -/

/-- Beta posterior for a single technique (`TechniquePosterior`). -/
structure TechniquePosterior where
  technique_id : String
  alpha : ℚ := 1.0
  beta : ℚ := 1.0
  observations : ℕ := 0
  deriving DecidableEq, Repr

/-- Beta mean `α/(α+β)` (`TechniquePosterior.mean`). -/
def TechniquePosterior.mean (p : TechniquePosterior) : ℚ :=
  p.alpha / (p.alpha + p.beta)

/-- `TechniquePosterior.update`: add the reward to α, its complement to β,
bump observations.  The code raises on rewards outside `[0,1]`; theorems
that rely on the update carry that hypothesis explicitly. -/
def TechniquePosterior.update (p : TechniquePosterior) (reward : ℚ) :
    TechniquePosterior :=
  { p with alpha := p.alpha + reward, beta := p.beta + (1.0 - reward),
           observations := p.observations + 1 }

/-- Collection of technique posteriors for a campaign (`PosteriorState`);
the dict is an insertion-ordered association list. -/
structure PosteriorState where
  posteriors : List (String × TechniquePosterior) := []
  prior_strength : ℚ := 8.0
  deriving DecidableEq, Repr

/-- Lookup into the posterior map. -/
def PosteriorState.find (s : PosteriorState) (technique_id : String) :
    Option TechniquePosterior :=
  (s.posteriors.find? (·.1 = technique_id)).map (·.2)

/-- Replace the entry for an id that is already present (dict assignment). -/
def setEntry (l : List (String × TechniquePosterior)) (id : String)
    (p : TechniquePosterior) : List (String × TechniquePosterior) :=
  l.map (fun e => if e.1 = id then (e.1, p) else e)

/-- `PosteriorState.get_or_init`: return the stored posterior, or initialize
from `benchmark_prior` when given (else `base_score`) with
`α = 1 + k·p`, `β = 1 + k·(1−p)`.  Returns the (possibly extended) state
and the entry the Python method returns. -/
def PosteriorState.get_or_init (s : PosteriorState) (technique_id : String)
    (base_score : ℚ := 0.5) (benchmark_prior : Option ℚ := none) :
    PosteriorState × TechniquePosterior :=
  match s.find technique_id with
  | some p => (s, p)
  | none =>
    let p := benchmark_prior.getD base_score
    let k := s.prior_strength
    let fresh : TechniquePosterior :=
      { technique_id := technique_id, alpha := 1.0 + k * p,
        beta := 1.0 + k * (1.0 - p), observations := 0 }
    ({ s with posteriors := s.posteriors ++ [(technique_id, fresh)] }, fresh)

/-! ## Family correlation (planner/correlation.py) -/

/-- Family key `domain:surface:primary_tag` (fallback: the surface value),
shared by `FamilyCorrelation._family_key` and `AdaptivePlanner._family_key`. -/
def family_key (t : AttackTechnique) : String :=
  let primary_tag := t.tags.headD t.surface.value
  t.domain.value ++ ":" ++ t.surface.value ++ ":" ++ primary_tag

/-- `FamilyCorrelation.get_siblings` after `register_techniques(catalog)`:
ids in the same family, excluding the technique itself.  Unregistered ids
have no family and hence no siblings. -/
def get_siblings (catalog : List AttackTechnique) (technique_id : String) :
    List String :=
  match catalog.find? (·.id = technique_id) with
  | none => []
  | some t =>
    ((catalog.filter (fun u => family_key u = family_key t ∧
        u.id ≠ technique_id)).map (·.id)).dedup

/-- One sibling step of `propagate_update`: initialize the sibling at base
score 0.5 if absent, then add `reward·rate` to α and `(1−reward)·rate` to β
(observations untouched). -/
def spilloverOne (rate reward : ℚ) (s : PosteriorState) (sibling_id : String) :
    PosteriorState :=
  let s1 := if (s.find sibling_id).isSome then s
            else (s.get_or_init sibling_id 0.5).1
  match s1.find sibling_id with
  | none => s1
  | some p =>
    let p2 : TechniquePosterior :=
      { p with alpha := p.alpha + reward * rate,
               beta := p.beta + (1.0 - reward) * rate }
    { s1 with posteriors := setEntry s1.posteriors sibling_id p2 }

/-- `FamilyCorrelation.propagate_update`: fractional spillover onto every
sibling of the observed technique.  The Python iteration is over a set;
the per-sibling updates commute, so the catalog order used here is
observationally the same. -/
def propagate_update (catalog : List AttackTechnique) (rate : ℚ)
    (observed_id : String) (reward : ℚ) (s : PosteriorState) : PosteriorState :=
  (get_siblings catalog observed_id).foldl (spilloverOne rate reward) s

/-! ## Diversity tracker (planner/diversity.py) -/

/-- `FamilyTracker`: tried family keys plus per-surface attempt counts. -/
structure FamilyTracker where
  min_surface_coverage : ℕ := 1
  untested_layer_bonus : ℚ := 0.3
  repeat_family_penalty : ℚ := 0.15
  below_coverage_bonus : ℚ := 0.15
  tried_families : List String := []
  surface_counts : List (Surface × ℕ) := []
  deriving DecidableEq, Repr

/-- `FamilyTracker._get_family_key`: like `family_key` but with the literal
fallback tag `"none"`. -/
def tracker_family_key (t : AttackTechnique) : String :=
  let primary_tag := t.tags.headD "none"
  t.domain.value ++ ":" ++ t.surface.value ++ ":" ++ primary_tag

/-- Count stored for a surface (`defaultdict(int)` read). -/
def FamilyTracker.surfaceCount (ft : FamilyTracker) (s : Surface) : ℕ :=
  ((ft.surface_counts.find? (·.1 = s)).map (·.2)).getD 0

/-- Whether a surface key is present in the counts dict; `mark_tried` only
ever inserts with a positive count, so presence is a positive count. -/
def FamilyTracker.surfaceSeen (ft : FamilyTracker) (s : Surface) : Bool :=
  (ft.surface_counts.find? (·.1 = s)).isSome

/-- `FamilyTracker.mark_tried`. -/
def FamilyTracker.mark_tried (ft : FamilyTracker) (t : AttackTechnique) :
    FamilyTracker :=
  let fam := tracker_family_key t
  let fams := if fam ∈ ft.tried_families then ft.tried_families
              else ft.tried_families ++ [fam]
  let counts :=
    if (ft.surface_counts.find? (·.1 = t.surface)).isSome then
      ft.surface_counts.map
        (fun e => if e.1 = t.surface then (e.1, e.2 + 1) else e)
    else ft.surface_counts ++ [(t.surface, 1)]
  { ft with tried_families := fams, surface_counts := counts }

/-- `FamilyTracker.compute_diversity_bonus`. -/
def FamilyTracker.compute_diversity_bonus (ft : FamilyTracker)
    (t : AttackTechnique) : ℚ :=
  let base : ℚ :=
    if ¬ ft.surfaceSeen t.surface then ft.untested_layer_bonus
    else if ft.surfaceCount t.surface < ft.min_surface_coverage then
      ft.below_coverage_bonus
    else 0.0
  if tracker_family_key t ∈ ft.tried_families then
    base - ft.repeat_family_penalty
  else base

/-! ## Cost-aware utility (planner/cost_aware.py) -/

/-- `GOAL_SEVERITY` defaults. -/
def GOAL_SEVERITY : Goal → ℚ
  | .exfil_sim => 1.0 | .tool_misuse => 0.95 | .extraction => 0.9
  | .jailbreak => 0.8 | .evasion => 0.7 | .poisoning => 1.0 | .dos => 0.6

/-- `SURFACE_CRITICALITY` defaults. -/
def SURFACE_CRITICALITY : Surface → ℚ
  | .action => 0.95 | .data => 0.9 | .tool => 0.85
  | .retrieval => 0.8 | .model => 0.7 | .guardrail => 0.6

/-- `compute_impact_weight`: max severity over goals shared with the target,
times the surface criticality; 0 when no goal is shared. -/
def compute_impact_weight (t : AttackTechnique) (target_goals : List Goal) : ℚ :=
  let relevant := target_goals.dedup.filter (· ∈ t.goals_supported)
  let max_goal_sev : ℚ :=
    match relevant with
    | [] => 0.0
    | g :: gs => (gs.map GOAL_SEVERITY).foldl max (GOAL_SEVERITY g)
  max_goal_sev * SURFACE_CRITICALITY t.surface

/-- `compute_cost`: `min(base_cost / max(max_cost, 0.01), 1.0)`. -/
def compute_cost (t : AttackTechnique) (max_cost : ℚ) : ℚ :=
  min (t.base_cost / max max_cost 0.01) 1.0

/-- `compute_utility`: additive cost-aware utility. -/
def compute_utility (success_prob impact_weight cost cost_weight
    info_gain_bonus detection_penalty diversity_bonus : ℚ) : ℚ :=
  success_prob * impact_weight + info_gain_bonus + diversity_bonus
    - detection_penalty - cost_weight * cost

/-! ## SHA-256 (FIPS 180-4), for `AdaptivePlanner._derive_step_seed`

The step seed is `int(hashlib.sha256(f"seed:step").hexdigest()[:8], 16)`:
the first 32 bits of the digest, i.e. the first output word.  Words are
naturals reduced modulo `2^32`. -/

/-- 32-bit right rotation on a natural below `2^32`. -/
def ror32 (x n : ℕ) : ℕ := (x >>> n) + (x % 2 ^ n) * 2 ^ (32 - n)

/-- SHA-256 small sigma 0. -/
def ssig0 (x : ℕ) : ℕ := (ror32 x 7) ^^^ (ror32 x 18) ^^^ (x >>> 3)

/-- SHA-256 small sigma 1. -/
def ssig1 (x : ℕ) : ℕ := (ror32 x 17) ^^^ (ror32 x 19) ^^^ (x >>> 10)

/-- SHA-256 big sigma 0. -/
def bsig0 (x : ℕ) : ℕ := (ror32 x 2) ^^^ (ror32 x 13) ^^^ (ror32 x 22)

/-- SHA-256 big sigma 1. -/
def bsig1 (x : ℕ) : ℕ := (ror32 x 6) ^^^ (ror32 x 11) ^^^ (ror32 x 25)

/-- SHA-256 choice function. -/
def shaCh (x y z : ℕ) : ℕ := (x &&& y) ^^^ ((x ^^^ 0xffffffff) &&& z)

/-- SHA-256 majority function. -/
def shaMaj (x y z : ℕ) : ℕ := (x &&& y) ^^^ (x &&& z) ^^^ (y &&& z)

/-- SHA-256 round constants (FIPS 180-4 section 4.2.2, in decimal). -/
def shaK : List ℕ :=
  [1116352408, 1899447441, 3049323471, 3921009573,
   961987163, 1508970993, 2453635748, 2870763221,
   3624381080, 310598401, 607225278, 1426881987,
   1925078388, 2162078206, 2614888103, 3248222580,
   3835390401, 4022224774, 264347078, 604807628,
   770255983, 1249150122, 1555081692, 1996064986,
   2554220882, 2821834349, 2952996808, 3210313671,
   3336571891, 3584528711, 113926993, 338241895,
   666307205, 773529912, 1294757372, 1396182291,
   1695183700, 1986661051, 2177026350, 2456956037,
   2730485921, 2820302411, 3259730800, 3345764771,
   3516065817, 3600352804, 4094571909, 275423344,
   430227734, 506948616, 659060556, 883997877,
   958139571, 1322822218, 1537002063, 1747873779,
   1955562222, 2024104815, 2227730452, 2361852424,
   2428436474, 2756734187, 3204031479, 3329325298]

/-- SHA-256 initial hash value (FIPS 180-4 section 5.3.3, in decimal). -/
def shaH0 : List ℕ :=
  [1779033703, 3144134277, 1013904242, 2773480762,
   1359893119, 2600822924, 528734635, 1541459225]

/-- `k` bytes of `n`, big-endian. -/
def beBytes : ℕ → ℕ → List ℕ
  | 0, _ => []
  | k + 1, n => beBytes k (n / 256) ++ [n % 256]

/-- Merkle–Damgård padding: `0x80`, zeros to 56 mod 64, 8-byte bit length. -/
def shaPad (msg : List ℕ) : List ℕ :=
  let padLen := (64 - ((msg.length + 9) % 64)) % 64
  msg ++ [0x80] ++ List.replicate padLen 0 ++ beBytes 8 (8 * msg.length)

/-- Big-endian 32-bit words from a byte list (length a multiple of 4). -/
def bytesToWords : List ℕ → List ℕ
  | a :: b :: c :: d :: rest =>
    (((a * 256 + b) * 256 + c) * 256 + d) :: bytesToWords rest
  | _ => []

/-- Split a byte list into 64-byte blocks. -/
def toBlocks (l : List ℕ) : List (List ℕ) :=
  match l with
  | [] => []
  | x :: xs => ((x :: xs).take 64) :: toBlocks ((x :: xs).drop 64)
termination_by l.length
decreasing_by simp [List.length_drop]; omega

/-- Extend the 16-word schedule to 64 words (`fuel` = 48 steps). -/
def extendSchedule (w : List ℕ) : ℕ → List ℕ
  | 0 => w
  | fuel + 1 =>
    let n := w.length
    let next := (ssig1 (w.getD (n - 2) 0) + w.getD (n - 7) 0 +
      ssig0 (w.getD (n - 15) 0) + w.getD (n - 16) 0) % 2 ^ 32
    extendSchedule (w ++ [next]) fuel

/-- Working variables of the compression loop. -/
structure ShaState where
  a : ℕ
  b : ℕ
  c : ℕ
  d : ℕ
  e : ℕ
  f : ℕ
  g : ℕ
  h : ℕ
  deriving Repr

/-- One compression round. -/
def shaRound (st : ShaState) (kw : ℕ × ℕ) : ShaState :=
  let t1 := (st.h + bsig1 st.e + shaCh st.e st.f st.g + kw.1 + kw.2) % 2 ^ 32
  let t2 := (bsig0 st.a + shaMaj st.a st.b st.c) % 2 ^ 32
  { a := (t1 + t2) % 2 ^ 32, b := st.a, c := st.b, d := st.c,
    e := (st.d + t1) % 2 ^ 32, f := st.e, g := st.f, h := st.g }

/-- Compress one 64-byte block into the running hash (8 words). -/
def shaCompress (hv : List ℕ) (block : List ℕ) : List ℕ :=
  let w := extendSchedule (bytesToWords block) 48
  let st0 : ShaState :=
    { a := hv.getD 0 0, b := hv.getD 1 0, c := hv.getD 2 0, d := hv.getD 3 0,
      e := hv.getD 4 0, f := hv.getD 5 0, g := hv.getD 6 0, h := hv.getD 7 0 }
  let st := (shaK.zip w).foldl (fun s kw => shaRound s (kw.1, kw.2)) st0
  [(hv.getD 0 0 + st.a) % 2 ^ 32, (hv.getD 1 0 + st.b) % 2 ^ 32,
   (hv.getD 2 0 + st.c) % 2 ^ 32, (hv.getD 3 0 + st.d) % 2 ^ 32,
   (hv.getD 4 0 + st.e) % 2 ^ 32, (hv.getD 5 0 + st.f) % 2 ^ 32,
   (hv.getD 6 0 + st.g) % 2 ^ 32, (hv.getD 7 0 + st.h) % 2 ^ 32]

/-- The eight 32-bit output words of SHA-256 on a byte message. -/
def sha256Words (msg : List ℕ) : List ℕ :=
  (toBlocks (shaPad msg)).foldl shaCompress shaH0

/-- ASCII bytes of a string (the seed strings are pure ASCII). -/
def asciiBytes (s : String) : List ℕ := s.data.map (·.toNat)

/-- `AdaptivePlanner._derive_step_seed`: first 32 bits (first 8 hex digits)
of `SHA-256("campaign_seed:step_number")`. -/
def derive_step_seed (campaign_seed : ℕ) (step_number : ℕ) : ℕ :=
  (sha256Words (asciiBytes
    (toString campaign_seed ++ ":" ++ toString step_number))).getD 0 0

/-! ## Adaptive planner (planner/adaptive.py) -/

/-- Configuration of an `AdaptivePlanner` instance.  The packaged
`config.yaml` is not part of the provided sources, so each default is the
in-code fallback used when its key is absent from the YAML document. -/
structure AdaptiveConfig where
  campaign_seed : ℕ
  prior_strength : ℚ := 3.0
  info_gain_weight : ℚ := 0.3
  detection_penalty_weight : ℚ := 0.2
  cost_weight : ℚ := 0.4
  use_benchmark_priors : Bool := true
  benchmark_blend_weight : ℚ := 0.6
  correlation_enabled : Bool := true
  spillover_rate : ℚ := 0.3
  max_cost : ℚ := 1.0
  deriving DecidableEq, Repr

/-- `AdaptivePlanner._compute_blended_prior`: none when benchmark priors are
disabled, else the blend of the clamped benchmark ASR and the V1 score. -/
def compute_blended_prior (cfg : AdaptiveConfig) (t : AttackTechnique)
    (base_score : ℚ) : Option ℚ :=
  if ¬ cfg.use_benchmark_priors then none
  else some (cfg.benchmark_blend_weight * get_benchmark_prior (family_key t)
    + (1.0 - cfg.benchmark_blend_weight) * base_score)

/-- `AdaptivePlanner._compute_info_gain`: Beta variance scaled to `[0,1]`. -/
def compute_info_gain (p : TechniquePosterior) : ℚ :=
  let a := p.alpha
  let b := p.beta
  let variance := a * b / ((a + b) ^ 2 * (a + b + 1))
  min (variance * 12) 1.0

/-- `AdaptivePlanner._compute_detection_penalty`. -/
def compute_detection_penalty (t : AttackTechnique) : ℚ :=
  match t.stealth_profile with
  | .overt => 0.5 | .moderate => 0.2 | .covert => 0.0

/-- `AdaptivePlanner._beta_ci` with `z = 1.96`; `fsqrt` models `math.sqrt`. -/
def beta_ci (fsqrt : ℚ → ℚ) (alpha beta : ℚ) : ℚ × ℚ :=
  let total := alpha + beta
  let mean := alpha / total
  let variance := alpha * beta / (total ^ 2 * (total + 1))
  let std := fsqrt variance
  (max 0.0 (mean - 1.96 * std), min 1.0 (mean + 1.96 * std))

/-- A scored candidate (the per-technique dict built inside `plan`). -/
structure Candidate where
  technique : AttackTechnique
  base_score : ℚ
  thompson_sample : ℚ
  impact : ℚ
  cost : ℚ
  info_gain : ℚ
  detection : ℚ
  diversity : ℚ
  repeat_penalty : ℚ
  utility : ℚ
  posterior : TechniquePosterior
  deriving DecidableEq, Repr

/-- `ScoreBreakdown`; fields the adaptive planner leaves unset keep their
model defaults. -/
structure ScoreBreakdown where
  compatibility : ℚ := 0.0
  access_fit : ℚ := 0.0
  goal_fit : ℚ := 0.0
  defense_bypass_likelihood : ℚ := 0.0
  signal_gain : ℚ := 0.0
  cost_penalty : ℚ := 0.0
  detection_risk_penalty : ℚ := 0.0
  diversity_bonus : ℚ := 0.0
  thompson_sample : Option ℚ := none
  utility : Option ℚ := none
  total : ℚ := 0.0
  confidence_interval : Option (ℚ × ℚ) := none
  posterior_variance : Option ℚ := none
  observations : ℕ := 0
  deriving DecidableEq, Repr

/-- The structured rationale dict attached to adaptive plan entries. -/
structure StructuredRationale where
  prior_source : String
  prior_asr : ℚ
  observations : ℕ
  posterior_mean : ℚ
  confidence_interval : ℚ × ℚ
  family : String
  siblings_observed : ℕ
  key_factors : List String
  deriving DecidableEq, Repr

/-- A single plan entry (`PlanEntry`). -/
structure PlanEntry where
  rank : ℕ
  technique_id : String
  technique_name : String
  score : ScoreBreakdown
  rationale : String
  tags : List String
  structured_rationale : Option StructuredRationale := none
  deriving DecidableEq, Repr

/-- The `config_used` dict the adaptive planner attaches to a plan.  Its
keys are exactly those written in `AdaptivePlanner.plan`; in particular
there is no campaign-seed key. -/
structure PlanConfigUsed where
  adaptive : Bool
  step_number : ℕ
  step_seed : ℕ
  prior_strength : ℚ
  cost_weight : ℚ
  exclude_tried : Bool
  repeat_penalty : ℚ
  campaign_phase : String
  deriving DecidableEq, Repr

/-- An attack plan (`AttackPlan`), reduced to the fields the claims read.
The adaptive planner attaches `some` `PlanConfigUsed`; the V1 engine
attaches the raw configuration document instead, which carries none of the
adaptive keys, modelled here as `none`. -/
structure AttackPlan where
  target : TargetProfile
  entries : List PlanEntry
  config_used : Option PlanConfigUsed
  deriving DecidableEq, Repr

/-- Round-half-even of a rational to an integer (CPython float rounding as
it surfaces in `:.2f` formatting). -/
def roundHalfEven (x : ℚ) : ℤ :=
  let f := ⌊x⌋
  let frac := x - (f : ℚ)
  if frac < 1 / 2 then f
  else if 1 / 2 < frac then f + 1
  else if f % 2 = 0 then f else f + 1

/-- Two-decimal formatting of a rational, the model of Python `:.2f` on the
embedded value. -/
def fmt2 (q : ℚ) : String :=
  let n := roundHalfEven (q * 100)
  let sign := if n < 0 then "-" else ""
  let m := n.natAbs
  let fp := m % 100
  sign ++ toString (m / 100) ++ "." ++
    (if fp < 10 then "0" ++ toString fp else toString fp)

/-- `AdaptivePlanner._build_rationale`. -/
def build_rationale (c : Candidate) : String :=
  let p1 := if c.posterior.observations = 0 then
      "sampled p=" ++ fmt2 c.thompson_sample ++ " from prior"
    else
      "sampled p=" ++ fmt2 c.thompson_sample ++ " (" ++
        toString c.posterior.observations ++ " obs)"
  let parts := [p1, "utility=" ++ fmt2 c.utility]
  let parts := if c.diversity > 0.2 then parts ++ ["untested surface"] else parts
  let parts := if c.repeat_penalty > 0 then
      parts ++ ["repeat penalty applied"] else parts
  let parts := if c.info_gain > 0.2 then parts ++ ["high info gain"] else parts
  String.intercalate "; " parts

/-- `AdaptivePlanner._extract_key_factors`. -/
def extract_key_factors (c : Candidate) : List String :=
  (if c.diversity > 0.2 then ["targets untested attack surface"] else []) ++
  (if c.info_gain > 0.15 then ["high information gain (uncertain outcome)"] else []) ++
  (if c.cost < 0.3 then ["low execution cost"] else []) ++
  (if c.cost > 0.7 then ["high execution cost"] else []) ++
  (if c.thompson_sample > 0.7 then ["high estimated success probability"] else []) ++
  (if c.thompson_sample < 0.3 then ["low estimated success probability"] else []) ++
  (if c.repeat_penalty > 0 then ["repeat technique (penalty applied)"] else [])

/-- The probe/exploit info-gain weight schedule of `AdaptivePlanner.plan`:
probe boosts exploration (×1.5), exploit damps it (×0.3). -/
def phase_info_gain_weight (cfg : AdaptiveConfig) : CampaignPhase → ℚ
  | .probe => cfg.info_gain_weight * 1.5
  | .exploit => cfg.info_gain_weight * 0.3

/-- The probe/exploit cost weight schedule of `AdaptivePlanner.plan`:
probe discounts cost (×0.7), exploit inflates it (×1.2). -/
def phase_cost_weight (cfg : AdaptiveConfig) : CampaignPhase → ℚ
  | .probe => cfg.cost_weight * 0.7
  | .exploit => cfg.cost_weight * 1.2

/-- Insert into a descending-by-key list, after all entries of key ≥ the
new key: the stable-descending order CPython's `sort(reverse=True)` yields. -/
def insertDesc (key : Candidate → ℚ) (x : Candidate) :
    List Candidate → List Candidate
  | [] => [x]
  | y :: ys => if key x ≤ key y then y :: insertDesc key x ys else x :: y :: ys

/-- Stable sort, descending by key. -/
def stableSortDesc (key : Candidate → ℚ) (l : List Candidate) : List Candidate :=
  l.foldl (fun acc x => insertDesc key x acc) []

/-- Accumulator of the candidate-scoring loop: posterior state, generator
state, scored candidates so far (in catalog order). -/
structure ScoreAcc (σ : Type) where
  ps : PosteriorState
  rng : σ
  cands : List Candidate

/-- Score one filtered technique (the body of the loop in
`AdaptivePlanner.plan`), skipping it when `exclude_tried` applies. -/
def scoreStep {σ : Type} (bv : σ → ℚ → ℚ → ℚ × σ) (cfg : AdaptiveConfig)
    (target : TargetProfile) (prior_results : List EvaluationResult)
    (exclude_tried : Bool) (repeat_penalty : ℚ)
    (info_gain_weight cost_weight : ℚ) (ft : FamilyTracker)
    (acc : ScoreAcc σ) (t : AttackTechnique) : ScoreAcc σ :=
  let tried := triedTechniqueIds prior_results
  if exclude_tried ∧ t.id ∈ tried then acc
  else
    let base_score := compute_v1_base_score t target prior_results
    let blended := compute_blended_prior cfg t base_score
    let (ps, posterior) := acc.ps.get_or_init t.id base_score blended
    let (thompson_sample, rng) := bv acc.rng posterior.alpha posterior.beta
    let impact := compute_impact_weight t target.goals
    let cost := compute_cost t cfg.max_cost
    let info_gain := compute_info_gain posterior * info_gain_weight
    let detection := compute_detection_penalty t * cfg.detection_penalty_weight
    let diversity := ft.compute_diversity_bonus t
    let repeat_pen := if t.id ∈ tried then repeat_penalty else 0.0
    let utility := compute_utility thompson_sample impact cost cost_weight
      info_gain detection diversity - repeat_pen
    { ps := ps, rng := rng,
      cands := acc.cands ++
        [{ technique := t, base_score := base_score,
           thompson_sample := thompson_sample, impact := impact, cost := cost,
           info_gain := info_gain, detection := detection,
           diversity := diversity, repeat_penalty := repeat_pen,
           utility := utility, posterior := posterior }] }

/-- Total observations of the technique's registered siblings present in
the posterior map (the `siblings_observed` loop in `plan`). -/
def siblingsObserved (catalog : List AttackTechnique) (ps : PosteriorState)
    (technique_id : String) : ℕ :=
  ((get_siblings catalog technique_id).map
    (fun sid => ((ps.find sid).map (·.observations)).getD 0)).sum

/-- Build one `PlanEntry` from a ranked candidate (the entry loop of
`AdaptivePlanner.plan`). -/
def buildEntry (fsqrt : ℚ → ℚ) (cfg : AdaptiveConfig)
    (catalog : List AttackTechnique) (ps : PosteriorState)
    (rank : ℕ) (c : Candidate) : PlanEntry :=
  let posterior := c.posterior
  let ci := beta_ci fsqrt posterior.alpha posterior.beta
  let variance := posterior.alpha * posterior.beta /
    ((posterior.alpha + posterior.beta) ^ 2 *
      (posterior.alpha + posterior.beta + 1))
  let breakdown : ScoreBreakdown :=
    { total := c.base_score, thompson_sample := some c.thompson_sample,
      utility := some c.utility, cost_penalty := c.cost,
      detection_risk_penalty := c.detection, diversity_bonus := c.diversity,
      confidence_interval := some ci, posterior_variance := some variance,
      observations := posterior.observations }
  let structured : StructuredRationale :=
    { prior_source := if cfg.use_benchmark_priors then "benchmark"
        else "v1_heuristic",
      prior_asr := c.base_score, observations := posterior.observations,
      posterior_mean := posterior.mean, confidence_interval := ci,
      family := family_key c.technique,
      siblings_observed := if cfg.correlation_enabled then
        siblingsObserved catalog ps c.technique.id else 0,
      key_factors := extract_key_factors c }
  { rank := rank, technique_id := c.technique.id,
    technique_name := c.technique.name, score := breakdown,
    rationale := build_rationale c, tags := c.technique.tags,
    structured_rationale := some structured }

/-- `AdaptivePlanner.plan`: filter, score with Thompson sampling, sort by
utility, take the top `max_techniques`, annotate.  Returns the plan and
the updated posterior state. -/
def planAdaptive {σ : Type} (bv : σ → ℚ → ℚ → ℚ × σ) (fsqrt : ℚ → ℚ)
    (seedInit : ℕ → σ) (cfg : AdaptiveConfig) (target : TargetProfile)
    (catalog : List AttackTechnique)
    (posterior_state : Option PosteriorState := none)
    (prior_results : List EvaluationResult := [])
    (max_techniques : ℕ := 10) (exclude_tried : Bool := false)
    (repeat_penalty : ℚ := 0.0)
    (family_tracker : Option FamilyTracker := none)
    (step_number : ℕ := 0) (campaign_phase : CampaignPhase := .probe) :
    AttackPlan × PosteriorState :=
  let ps0 := posterior_state.getD { prior_strength := cfg.prior_strength }
  let ft := family_tracker.getD {}
  let step_seed := derive_step_seed cfg.campaign_seed step_number
  let rng0 := seedInit step_seed
  let info_gain_weight := phase_info_gain_weight cfg campaign_phase
  let cost_weight := phase_cost_weight cfg campaign_phase
  let filtered := catalog.filter
    (fun t => passes_all_filters t target && t.base_cost ≤ cfg.max_cost)
  let acc := filtered.foldl
    (scoreStep bv cfg target prior_results exclude_tried repeat_penalty
      info_gain_weight cost_weight ft)
    { ps := ps0, rng := rng0, cands := [] }
  let sorted := stableSortDesc (·.utility) acc.cands
  let entries := (sorted.take max_techniques).enum.map
    (fun ic => buildEntry fsqrt cfg catalog acc.ps (ic.1 + 1) ic.2)
  let config_used : PlanConfigUsed :=
    { adaptive := true, step_number := step_number, step_seed := step_seed,
      prior_strength := cfg.prior_strength, cost_weight := cfg.cost_weight,
      exclude_tried := exclude_tried, repeat_penalty := repeat_penalty,
      campaign_phase := campaign_phase.value }
  ({ target := target, entries := entries, config_used := some config_used },
    acc.ps)

/-! ## V1 engine plan (prioritizer/engine.py), the non-adaptive branch -/

/-- A V1 scored technique (`ScoredTechnique`): full breakdown of the seven
sub-scores plus the weighted total. -/
def scoreTechniqueV1 (t : AttackTechnique) (target : TargetProfile)
    (prior_results : List EvaluationResult) : ScoreBreakdown :=
  { compatibility := score_compatibility t target,
    access_fit := score_access_fit t target,
    goal_fit := score_goal_fit t target,
    defense_bypass_likelihood := score_defense_bypass_likelihood t target,
    signal_gain := score_signal_gain t prior_results,
    cost_penalty := score_cost_penalty t,
    detection_risk_penalty := score_detection_risk_penalty t target,
    total := score_technique_total t target prior_results }

/-- Pair of a technique and its V1 breakdown. -/
structure ScoredTechnique where
  technique : AttackTechnique
  breakdown : ScoreBreakdown
  deriving DecidableEq, Repr

/-- Stable descending insertion by V1 total (CPython `sort(reverse=True)`). -/
def insertDescV1 (key : ScoredTechnique → ℚ) (x : ScoredTechnique) :
    List ScoredTechnique → List ScoredTechnique
  | [] => [x]
  | y :: ys => if key x ≤ key y then y :: insertDescV1 key x ys else x :: y :: ys

/-- Stable sort of V1 scored techniques, descending by key. -/
def sortDescV1 (key : ScoredTechnique → ℚ) (l : List ScoredTechnique) :
    List ScoredTechnique :=
  l.foldl (fun acc x => insertDescV1 key x acc) []

/-- The `(domain, phase, surface)` triple of the V1 diversity penalty. -/
def tripleOf (t : AttackTechnique) : String × String × String :=
  (t.domain.value, t.phase.value, t.surface.value)

/-- `PrioritizerEngine._apply_diversity_bonus`: walk the ranking and charge
`−0.15·count` to each later entry sharing a `(domain, phase, surface)`
triple already seen. -/
def applyDiversityBonusV1 (scored : List ScoredTechnique) :
    List ScoredTechnique :=
  let ordered := sortDescV1 (·.breakdown.total) scored
  (ordered.foldl
    (fun (acc : List ScoredTechnique ×
        List ((String × String × String) × ℕ)) s =>
      let triple := tripleOf s.technique
      let count := (((acc.2.find? (·.1 = triple)).map (·.2)).getD 0)
      let s2 := if 0 < count then
          { s with breakdown := { s.breakdown with
              diversity_bonus := -(0.15 : ℚ) * count,
              total := s.breakdown.total + -(0.15 : ℚ) * count } }
        else s
      let seen := if (acc.2.find? (·.1 = triple)).isSome then
          acc.2.map (fun e => if e.1 = triple then (e.1, e.2 + 1) else e)
        else acc.2 ++ [(triple, 1)]
      (acc.1 ++ [s2], seen))
    ([], [])).1

/-- `PrioritizerEngine._generate_rationale`. -/
def generateRationaleV1 (s : ScoredTechnique) (target : TargetProfile) : String :=
  let t := s.technique
  let b := s.breakdown
  let parts : List String :=
    (if b.compatibility ≥ 0.8 then
      ["strong fit for " ++ target.target_type.value ++ " targets"] else []) ++
    (if b.goal_fit ≥ 0.8 then
      ["directly addresses goal(s): " ++ String.intercalate ", "
        ((t.goals_supported.filter (· ∈ target.goals)).map Goal.value)]
     else []) ++
    (if b.defense_bypass_likelihood ≥ 0.7 then
      ["likely to bypass observed defenses on " ++ t.surface.value ++ " layer"]
     else []) ++
    (if b.signal_gain ≥ 0.8 then
      ["high information gain (untried technique)"] else []) ++
    (if b.cost_penalty ≤ 0.3 then ["low cost"] else []) ++
    (if b.cost_penalty ≥ 0.7 then ["high cost — consider budget"] else [])
  let parts := if parts = [] then
      ["moderate fit across scoring dimensions"] else parts
  String.intercalate "; " parts ++ " [total=" ++ fmt2 b.total ++ "]"

/-- `PrioritizerEngine.plan`: filter → score → diversity penalty → sort →
truncate → build entries.  `max_techniques = none` (or `some 0`, falsy in
Python) leaves the ranking untruncated.  Note `exclude_tried` plays no
role in this engine. -/
def planV1 (target : TargetProfile) (catalog : List AttackTechnique)
    (prior_results : List EvaluationResult := [])
    (max_techniques : Option ℕ := none) : AttackPlan :=
  let filtered := catalog.filter
    (fun t => passes_all_filters t target && t.base_cost ≤ 1.0)
  let scored := filtered.map (fun t => ScoredTechnique.mk t
    (scoreTechniqueV1 t target prior_results))
  let scored := applyDiversityBonusV1 scored
  let sorted := sortDescV1 (·.breakdown.total) scored
  let sorted := match max_techniques with
    | some k => if k = 0 then sorted else sorted.take k
    | none => sorted
  let entries := sorted.enum.map (fun is =>
    { rank := is.1 + 1, technique_id := is.2.technique.id,
      technique_name := is.2.technique.name, score := is.2.breakdown,
      rationale := generateRationaleV1 is.2 target,
      tags := is.2.technique.tags, structured_rationale := none : PlanEntry })
  { target := target, entries := entries, config_used := none }

/-- `AdaptivePlanner.update_posteriors`: direct Bayesian update per
conclusive result (binary reward policy), then family spillover.  Unknown
technique ids and inconclusive results are skipped. -/
def update_posteriors (cfg : AdaptiveConfig) (ps : PosteriorState)
    (results : List EvaluationResult) (catalog : List AttackTechnique)
    (target : TargetProfile) : PosteriorState :=
  results.foldl
    (fun ps evaluation =>
      let technique_id := evaluation.comparability.technique_id
      if technique_id = "" then ps
      else
        match evaluation.success with
        | none => ps
        | some success =>
          match catalog.find? (·.id = technique_id) with
          | none => ps
          | some t =>
            let reward : ℚ := if success then 1.0 else 0.0
            let base_score := compute_v1_base_score t target []
            let blended := compute_blended_prior cfg t base_score
            let (ps1, posterior) := ps.get_or_init technique_id base_score blended
            let entries2 := setEntry ps1.posteriors technique_id
              (posterior.update reward)
            let ps2 := { ps1 with posteriors := entries2 }
            if cfg.correlation_enabled then
              propagate_update catalog cfg.spillover_rate technique_id reward ps2
            else ps2)
    ps

/-! ## Campaign model and manager (models/campaign.py, campaign/manager.py) -/

/-- Mutable state of a running campaign (`CampaignState`). -/
structure CampaignState where
  attempts : List AttemptResult := []
  evaluations : List EvaluationResult := []
  techniques_tried : List String := []
  queries_used : ℕ := 0
  deriving DecidableEq, Repr

/-- A campaign (`Campaign`); `adaptive` and `campaign_seed` model the
metadata entries of the same names. -/
structure Campaign where
  id : String
  name : String := ""
  status : CampaignStatus := .planning
  phase : CampaignPhase := .probe
  target : TargetProfile
  plan : Option AttackPlan := none
  state : CampaignState := {}
  posterior_state : Option PosteriorState := none
  adaptive : Bool := false
  campaign_seed : Option ℕ := none
  deriving DecidableEq, Repr

/-- Complete snapshot of a planning decision (`DecisionSnapshot`), reduced
to the fields the recording and replay paths read. -/
structure PlannerConfigDict where
  campaign_seed : Option ℕ := none
  exclude_tried : Option Bool := none
  repeat_penalty : Option ℚ := none
  campaign_phase : Option String := none
  deriving DecidableEq, Repr

/-- The dict view of an adaptive `config_used` as the replayer reads it:
the keys written by `AdaptivePlanner.plan` do not include
`campaign_seed`, so that lookup yields `None`. -/
def configUsedToDict : Option PlanConfigUsed → PlannerConfigDict
  | none => {}
  | some c =>
    { campaign_seed := none, exclude_tried := some c.exclude_tried,
      repeat_penalty := some c.repeat_penalty,
      campaign_phase := some c.campaign_phase }

/-- `DecisionSnapshot`. -/
structure DecisionSnapshot where
  snapshot_id : String := ""
  campaign_id : String
  step_number : ℕ
  step_seed : ℕ
  techniques_tried : List String := []
  evaluation_count : ℕ := 0
  queries_used : ℕ := 0
  posterior_state : PosteriorState
  planner_config : PlannerConfigDict := {}
  produced_plan_entries : List PlanEntry := []
  deriving DecidableEq, Repr

/-- In-memory state of a `CampaignManager`: campaigns, per-campaign step
counters, and the snapshots the recorder has stored. -/
structure ManagerState where
  campaigns : List (String × Campaign) := []
  counters : List (String × ℕ) := []
  snapshots : List (String × ℕ × DecisionSnapshot) := []
  deriving Repr

/-- Campaign lookup (`CampaignManager.get`, in-memory path). -/
def ManagerState.getCampaign (m : ManagerState) (id : String) :
    Option Campaign :=
  (m.campaigns.find? (·.1 = id)).map (·.2)

/-- Step counter with default 0 (`self._step_counters.get(id, 0)`). -/
def ManagerState.counter (m : ManagerState) (id : String) : ℕ :=
  ((m.counters.find? (·.1 = id)).map (·.2)).getD 0

/-- Store a campaign under its id. -/
def ManagerState.putCampaign (m : ManagerState) (c : Campaign) : ManagerState :=
  { m with campaigns :=
      if (m.campaigns.find? (·.1 = c.id)).isSome then
        m.campaigns.map (fun e => if e.1 = c.id then (e.1, c) else e)
      else m.campaigns ++ [(c.id, c)] }

/-- Set a step counter. -/
def ManagerState.putCounter (m : ManagerState) (id : String) (n : ℕ) :
    ManagerState :=
  { m with counters :=
      if (m.counters.find? (·.1 = id)).isSome then
        m.counters.map (fun e => if e.1 = id then (e.1, n) else e)
      else m.counters ++ [(id, n)] }

/-- Append a recorded snapshot (the recorder's disk write). -/
def ManagerState.appendSnapshot (m : ManagerState)
    (entry : String × ℕ × DecisionSnapshot) : ManagerState :=
  { m with snapshots := m.snapshots ++ [entry] }

/-- `CampaignManager._should_transition`: PROBE campaigns move to EXPLOIT
when the step counter reached 3 or at least 60% of the six surfaces are
covered by tried techniques that resolve in the catalog. -/
def should_transition (catalog : List AttackTechnique) (m : ManagerState)
    (c : Campaign) : Bool :=
  if c.phase ≠ .probe then false
  else if 3 ≤ m.counter c.id then true
  else
    let tested_surfaces :=
      ((c.state.techniques_tried.filterMap
        (fun tid => (catalog.find? (·.id = tid)).map (·.surface))).dedup)
    decide ((tested_surfaces.length : ℚ) / (6 : ℚ) ≥ 0.6)

/-- `CampaignManager.create`, with the process-random pieces (uuid id,
generated campaign seed) passed explicitly.  The planner configuration is
the manager's adaptive-planner instance, when one was supplied. -/
def managerCreate {σ : Type} (bv : σ → ℚ → ℚ → ℚ × σ) (fsqrt : ℚ → ℚ)
    (seedInit : ℕ → σ) (planner : Option AdaptiveConfig)
    (catalog : List AttackTechnique) (m : ManagerState)
    (campaign_id : String) (target : TargetProfile)
    (auto_plan : Bool := true) (adaptive : Bool := false)
    (campaign_seed : Option ℕ := none) (fresh_seed : ℕ := 0) : ManagerState :=
  let seed : Option ℕ :=
    if adaptive ∧ campaign_seed = none then some fresh_seed else campaign_seed
  let posterior0 : Option PosteriorState :=
    if adaptive then some {} else none
  let planned : Option AttackPlan × Option PosteriorState × CampaignStatus :=
    if auto_plan then
      match adaptive, planner with
      | true, some pcfg =>
        let pr := planAdaptive bv fsqrt seedInit pcfg target catalog posterior0
        (some pr.1, some pr.2, .active)
      | _, _ => (some (planV1 target catalog), posterior0, .active)
    else (none, posterior0, .planning)
  let c : Campaign :=
    { id := campaign_id, name := "campaign-" ++ campaign_id,
      target := target, status := planned.2.2, plan := planned.1,
      posterior_state := planned.2.1, adaptive := adaptive,
      campaign_seed := seed }
  ((m.putCampaign c).putCounter campaign_id 0)

/-- `CampaignManager.ingest_results`: append results, track newly tried
technique ids (first-seen order), bump the query counter, and update
posteriors on adaptive campaigns.  Missing campaigns raise; modelled as a
no-op state. -/
def managerIngest (planner : Option AdaptiveConfig)
    (catalog : List AttackTechnique) (m : ManagerState) (campaign_id : String)
    (attempts : List AttemptResult) (evaluations : List EvaluationResult) :
    ManagerState :=
  match m.getCampaign campaign_id with
  | none => m
  | some c =>
    let tried := (attempts.map (·.technique_id)).dedup.foldl
      (fun acc tid => if tid ∈ acc then acc else acc ++ [tid])
      c.state.techniques_tried
    let st : CampaignState :=
      { attempts := c.state.attempts ++ attempts,
        evaluations := c.state.evaluations ++ evaluations,
        techniques_tried := tried,
        queries_used := c.state.queries_used + attempts.length }
    let c := { c with state := st }
    let c :=
      match c.adaptive, planner, c.posterior_state with
      | true, some pcfg, some ps =>
        let ps2 := update_posteriors pcfg ps evaluations catalog c.target
        { c with posterior_state := some ps2 }
      | _, _, _ => c
    m.putCampaign c

/-- Rebuild a diversity tracker from tried technique ids (the loop shared
by `recommend_next` and `DecisionReplayer.replay`). -/
def trackerFromTried (catalog : List AttackTechnique)
    (techniques_tried : List String) : FamilyTracker :=
  techniques_tried.foldl
    (fun ft tid =>
      match catalog.find? (·.id = tid) with
      | some t => ft.mark_tried t
      | none => ft)
    {}

/-- `CampaignManager.recommend_next`: bump the step counter, run the phase
transition, then plan on the adaptive branch (recording a snapshot when a
recorder is attached) or fall back to the V1 engine.  `py_hash` models the
salted `hash()` builtin used only for the snapshot's `step_seed` field. -/
def managerRecommend {σ : Type} (bv : σ → ℚ → ℚ → ℚ × σ) (fsqrt : ℚ → ℚ)
    (seedInit : ℕ → σ) (planner : Option AdaptiveConfig)
    (catalog : List AttackTechnique) (recorder_enabled : Bool)
    (py_hash : String → ℕ) (m : ManagerState) (campaign_id : String)
    (max_techniques : ℕ := 5) (exclude_tried : Bool := false)
    (repeat_penalty : ℚ := 0.0) (adaptive : Option Bool := none) :
    Option AttackPlan × ManagerState :=
  match m.getCampaign campaign_id with
  | none => (none, m)
  | some c =>
    let is_adaptive := adaptive.getD c.adaptive
    let step_number := m.counter campaign_id
    let m := m.putCounter campaign_id (step_number + 1)
    let c := if should_transition catalog m c then
        { c with phase := .exploit } else c
    match is_adaptive, planner, c.posterior_state with
    | true, some pcfg, some ps =>
      let ft := trackerFromTried catalog c.state.techniques_tried
      let pr := planAdaptive bv fsqrt seedInit pcfg c.target catalog
        (some ps) c.state.evaluations max_techniques exclude_tried
        repeat_penalty (some ft) step_number c.phase
      let plan := pr.1
      let c := { c with posterior_state := some pr.2 }
      let m := m.putCampaign c
      let snapshot : DecisionSnapshot :=
        { snapshot_id := "", campaign_id := c.id,
          step_number := step_number,
          step_seed := py_hash (toString (c.campaign_seed.getD 0) ++ ":"
            ++ toString step_number) % 2 ^ 31,
          techniques_tried := c.state.techniques_tried,
          evaluation_count := c.state.evaluations.length,
          queries_used := c.state.queries_used,
          posterior_state := pr.2,
          planner_config := configUsedToDict plan.config_used,
          produced_plan_entries := plan.entries }
      let m :=
        if recorder_enabled then m.appendSnapshot (c.id, step_number, snapshot)
        else m
      (some plan, m)
    | _, _, _ =>
      let plan := planV1 c.target catalog c.state.evaluations
        (some max_techniques)
      (some plan, m.putCampaign c)

/-- `CampaignManager.update_status`. -/
def managerUpdateStatus (m : ManagerState) (campaign_id : String)
    (status : CampaignStatus) : ManagerState :=
  match m.getCampaign campaign_id with
  | none => m
  | some c => m.putCampaign { c with status := status }

/-! ## Persistence paths and id validation (campaign/manager.py,
replay/recorder.py)

Each operation is modelled by its id gate together with the first
filesystem path it touches: an `Except` error means the id was rejected
before any filesystem operation. -/

/-- A character the class `[a-zA-Z0-9_-]` of `_SAFE_ID_RE` accepts. -/
def isSafeIdChar (c : Char) : Bool :=
  c.isAlphanum || c = '_' || c = '-'

/-- The gate `not campaign_id or not _SAFE_ID_RE.match(campaign_id)` of
`_validate_campaign_id`, pattern `^[a-zA-Z0-9_-]+$`.  Python's `re` gives
`$` an extra match point just before a trailing newline, so the pattern
also accepts an otherwise-safe id followed by one final `'\n'`. -/
def isSafeCampaignId (id : String) : Bool :=
  let core := if id.data.getLast? = some '\n' then id.data.dropLast
    else id.data
  core ≠ [] && core.all isSafeIdChar

/-- `_validate_campaign_id`: raise `ValueError` on unsafe ids. -/
def validate_campaign_id (id : String) : Except String Unit :=
  if isSafeCampaignId id then .ok ()
  else .error ("Invalid campaign_id " ++ id ++
    ": must be alphanumeric, hyphens, underscores only")

/-- Zero-padded step number (`f-string 04d`). -/
def pad4 (n : ℕ) : String :=
  let s := toString n
  (List.replicate (4 - s.length) '0').asString ++ s

/-- `CampaignManager._save`: validates, then (when a storage dir is set)
writes `<storage>/<id>.json` via a temp file.  Returns the destination
path written, `none` when persistence is disabled. -/
def managerSaveFs (storage_dir_set : Bool) (campaign_id : String) :
    Except String (Option String) := do
  _ ← validate_campaign_id campaign_id
  pure (if storage_dir_set then some (campaign_id ++ ".json") else none)

/-- `CampaignManager._load`: validates, then reads `<storage>/<id>.json`. -/
def managerLoadFs (storage_dir_set : Bool) (campaign_id : String) :
    Except String (Option String) := do
  _ ← validate_campaign_id campaign_id
  pure (if storage_dir_set then some (campaign_id ++ ".json") else none)

/-- `SnapshotRecorder.record`: creates
`<storage>/<campaign_id>/snapshots/` and writes `step_NNNN.json`.  The
method performs no id validation. -/
def recorderRecordFs (campaign_id : String) (step_number : ℕ) :
    Except String String :=
  .ok (campaign_id ++ "/snapshots/step_" ++ pad4 step_number ++ ".json")

/-- `SnapshotRecorder.load`: reads the snapshot file, no id validation. -/
def recorderLoadFs (campaign_id : String) (step_number : ℕ) :
    Except String String :=
  .ok (campaign_id ++ "/snapshots/step_" ++ pad4 step_number ++ ".json")

/-- `SnapshotRecorder.list_snapshots`: globkeys the snapshot directory, no
id validation. -/
def recorderListFs (campaign_id : String) : Except String String :=
  .ok (campaign_id ++ "/snapshots")

/-! ## Decision replayer (replay/replayer.py) -/

/-- `DecisionReplayer.replay`.  When no planner was supplied, one is built
from `snapshot.planner_config.get("campaign_seed")`; Python's
`campaign_seed or random.randint(...)` falls through to a fresh random
seed (modelled by `fresh_seed`) when that lookup yields `None` (or `0`).
Prior results are not reconstructed: the planner is re-run with
`prior_results=[]`. -/
def replayDecision {σ : Type} (bv : σ → ℚ → ℚ → ℚ × σ) (fsqrt : ℚ → ℚ)
    (seedInit : ℕ → σ) (catalog : List AttackTechnique)
    (planner : Option AdaptiveConfig) (fresh_seed : ℕ)
    (snapshot : DecisionSnapshot) (target : TargetProfile) : AttackPlan :=
  let pcfg : AdaptiveConfig :=
    match planner with
    | some p => p
    | none =>
      { campaign_seed :=
          match snapshot.planner_config.campaign_seed with
          | some s => if s = 0 then fresh_seed else s
          | none => fresh_seed }
  let max_techniques := snapshot.produced_plan_entries.length
  let exclude_tried := (snapshot.planner_config.exclude_tried).getD false
  let repeat_penalty := (snapshot.planner_config.repeat_penalty).getD 0.0
  let ft := trackerFromTried catalog snapshot.techniques_tried
  let phase : CampaignPhase :=
    if (snapshot.planner_config.campaign_phase).getD "probe" = "exploit"
    then .exploit else .probe
  (planAdaptive bv fsqrt seedInit pcfg target catalog
    (some snapshot.posterior_state) [] max_techniques exclude_tried
    repeat_penalty (some ft) snapshot.step_number phase).1

/-- A replay divergence; the human-readable strings of `verify` are
modelled as structured values. -/
inductive Divergence where
  | plan_length (original replayed : ℕ)
  | technique_id_mismatch (rank : ℕ) (original replayed : String)
  | utility_mismatch (rank : ℕ) (original replayed : ℚ)
  deriving DecidableEq, Repr

/-- `DecisionReplayer.verify`: replay, then compare length, ranked ids,
and utilities within tolerance (default `1e-6`). -/
def verifyDecision {σ : Type} (bv : σ → ℚ → ℚ → ℚ × σ) (fsqrt : ℚ → ℚ)
    (seedInit : ℕ → σ) (catalog : List AttackTechnique)
    (planner : Option AdaptiveConfig) (fresh_seed : ℕ)
    (snapshot : DecisionSnapshot) (target : TargetProfile)
    (tolerance : ℚ := 1 / 1000000) : Bool × List Divergence :=
  let replayed := replayDecision bv fsqrt seedInit catalog planner
    fresh_seed snapshot target
  let original_len := snapshot.produced_plan_entries.length
  let replayed_len := replayed.entries.length
  let d0 : List Divergence :=
    if original_len ≠ replayed_len then
      [.plan_length original_len replayed_len] else []
  let pairs := (snapshot.produced_plan_entries.zip replayed.entries).enum
  let ds := pairs.foldl
    (fun acc ip =>
      let i := ip.1
      let o := ip.2.1
      let r := ip.2.2
      let acc := if o.technique_id ≠ r.technique_id then
          acc ++ [.technique_id_mismatch (i + 1) o.technique_id r.technique_id]
        else acc
      match o.score.utility, r.score.utility with
      | some ou, some ru =>
        if |ou - ru| > tolerance then
          acc ++ [.utility_mismatch (i + 1) ou ru]
        else acc
      | _, _ => acc)
    d0
  (ds = [], ds)

/-! ## Weakest-layer analyzer (reporting/analyzer.py)

The Wilson statistics take real values (`math.sqrt`); they are modelled
over `ℝ` with `Real.sqrt`. -/

/-- The analyzer's default z (95% confidence). -/
def analyzer_z : ℝ := 1.96

/-- `WeakestLayerAnalyzer._wilson_center`. -/
noncomputable def wilson_center (successes total : ℕ) : ℝ :=
  if total = 0 then 0
  else
    let z2 := analyzer_z ^ 2
    let p := (successes : ℝ) / (total : ℝ)
    (p + z2 / (2 * total)) / (1 + z2 / total)

/-- `WeakestLayerAnalyzer._wilson_interval`. -/
noncomputable def wilson_interval (successes total : ℕ) : ℝ × ℝ :=
  if total = 0 then (0, 1)
  else
    let z2 := analyzer_z ^ 2
    let p := (successes : ℝ) / (total : ℝ)
    let denominator := 1 + z2 / total
    let center := (p + z2 / (2 * total)) / denominator
    let spread := (analyzer_z / denominator) *
      Real.sqrt (p * (1 - p) / total + z2 / (4 * (total : ℝ) ^ 2))
    (max 0 (center - spread), min 1 (center + spread))

/-- Modelled from the spec: the Wilson center exactly as §4.7 writes it,
`(p + z²/(2n))/(1 + z²/n)` with `p = s/n` and `z = 1.96`. -/
noncomputable def spec_wilson_center (s n : ℕ) : ℝ :=
  let z : ℝ := 1.96
  let p := (s : ℝ) / (n : ℝ)
  (p + z ^ 2 / (2 * n)) / (1 + z ^ 2 / n)

/-- Modelled from the spec: the Wilson interval exactly as §4.7 writes it,
center ± `(z/(1+z²/n))·sqrt(p(1−p)/n + z²/(4n²))`, clamped to `[0,1]`. -/
noncomputable def spec_wilson_interval (s n : ℕ) : ℝ × ℝ :=
  let z : ℝ := 1.96
  let p := (s : ℝ) / (n : ℝ)
  let center := (p + z ^ 2 / (2 * n)) / (1 + z ^ 2 / n)
  let spread := (z / (1 + z ^ 2 / n)) *
    Real.sqrt (p * (1 - p) / n + z ^ 2 / (4 * (n : ℝ) ^ 2))
  (max 0 (center - spread), min 1 (center + spread))

/-! ## Manager operation language

A campaign manager run is a sequence of public operations; this inductive
drives the monotonicity statements about campaign phase. -/

/-- One public `CampaignManager` operation. -/
inductive MgrOp where
  | create (id : String) (target : TargetProfile) (auto_plan adaptive : Bool)
      (campaign_seed : Option ℕ) (fresh_seed : ℕ)
  | ingest (id : String) (attempts : List AttemptResult)
      (evals : List EvaluationResult)
  | recommend (id : String) (max_techniques : ℕ) (exclude_tried : Bool)
      (repeat_penalty : ℚ) (adaptive : Option Bool)
  | set_status (id : String) (status : CampaignStatus)

/-- The campaign id an operation addresses. -/
def MgrOp.targetId : MgrOp → String
  | .create id .. => id
  | .ingest id .. => id
  | .recommend id .. => id
  | .set_status id .. => id

/-- Step the manager by one operation (plans returned by `recommend` are
not part of the state). -/
def mgrStep {σ : Type} (bv : σ → ℚ → ℚ → ℚ × σ) (fsqrt : ℚ → ℚ)
    (seedInit : ℕ → σ) (planner : Option AdaptiveConfig)
    (catalog : List AttackTechnique) (recorder_enabled : Bool)
    (py_hash : String → ℕ) (m : ManagerState) : MgrOp → ManagerState
  | .create id target auto_plan adaptive seed fresh =>
    managerCreate bv fsqrt seedInit planner catalog m id target auto_plan
      adaptive seed fresh
  | .ingest id attempts evals =>
    managerIngest planner catalog m id attempts evals
  | .recommend id max_techniques exclude_tried repeat_penalty adaptive =>
    (managerRecommend bv fsqrt seedInit planner catalog recorder_enabled
      py_hash m id max_techniques exclude_tried repeat_penalty adaptive).2
  | .set_status id status => managerUpdateStatus m id status

/-- Fraction of the six surfaces covered by a campaign's tried techniques
(the quantity `_should_transition` compares with 0.6). -/
def surfaceFraction (catalog : List AttackTechnique) (c : Campaign) : ℚ :=
  (((c.state.techniques_tried.filterMap
    (fun tid => (catalog.find? (·.id = tid)).map (·.surface))).dedup).length : ℚ)
    / 6

/-- Well-formedness of the manager's campaign map: every campaign is
stored under its own id (all constructors maintain this). -/
def ManagerState.WF (m : ManagerState) : Prop :=
  ∀ e ∈ m.campaigns, e.2.id = e.1

/-- Whether an operation is `create` addressed to the given id (a `create`
overwrites the slot with a brand-new campaign). -/
def MgrOp.isCreateFor (id : String) : MgrOp → Prop
  | .create id' .. => id' = id
  | _ => False

/-! ## Concrete fixtures for witnesses and counterexamples -/

/-- A trivial sampler state: the Thompson sample is the constant 1/2.  Any
concrete instantiation of the sampler parameter is admissible; the facts
evaluated with it do not depend on the sampled values. -/
def constBv : Unit → ℚ → ℚ → ℚ × Unit := fun s _ _ => (1 / 2, s)

/-- Trivial seeding into the unit generator state. -/
def unitSeed : ℕ → Unit := fun _ => ()

/-- A concrete stand-in for the float `math.sqrt` inside `_beta_ci`. -/
def zeroSqrt : ℚ → ℚ := fun _ => 0

/-- A concrete stand-in for Python's salted `hash()` builtin. -/
def zeroHash : String → ℕ := fun _ => 0

/-- A catalog technique fixture: LLM guardrail jailbreak probe. -/
def fixTech (id : String) (tags : List String := ["jailbreak"]) :
    AttackTechnique :=
  { id := id, name := "Technique " ++ id, domain := .llm, phase := .probe,
    surface := .guardrail, access_required := .black_box,
    goals_supported := [.jailbreak], target_types := [.chatbot],
    base_cost := 0.2, stealth_profile := .covert, tags := tags }

/-- A black-box chatbot target fixture. -/
def fixTarget : TargetProfile :=
  { name := "Test Chatbot", target_type := .chatbot,
    access_level := .black_box, goals := [.jailbreak] }

/-- A successful evaluation of a technique. -/
def fixEval (attempt_id technique_id : String) (success : Option Bool) :
    EvaluationResult :=
  { attempt_id := attempt_id, success := success,
    comparability := { technique_id := technique_id } }

/-- An attempt fixture. -/
def fixAttempt (id technique_id : String) : AttemptResult :=
  { id := id, technique_id := technique_id }

/-- The default adaptive planner configuration at seed 42. -/
def fixCfg : AdaptiveConfig := { campaign_seed := 42 }

/-! # Theorems -/

/-! ## Helper lemmas -/

theorem lookupD_cases (l : List (String × ℚ)) (k : String) (d : ℚ) :
    lookupD l k d = d ∨ ∃ p ∈ l, p.1 = k ∧ lookupD l k d = p.2 := by
  induction l with
  | nil => exact Or.inl rfl
  | cons hd tl ih =>
    by_cases h : hd.1 = k
    · refine Or.inr ⟨hd, List.mem_cons_self .., h, ?_⟩
      simp [lookupD, h]
    · rcases ih with h2 | ⟨p, hp, hk, hv⟩
      · exact Or.inl (by simpa [lookupD, h] using h2)
      · exact Or.inr ⟨p, List.mem_cons_of_mem _ hp, hk,
          by simpa [lookupD, h] using hv⟩

theorem bench_table_range : ∀ p ∈ BENCHMARK_ASR, (0.2 : ℚ) ≤ p.2 ∧ p.2 ≤ 0.7 := by
  intro p hp
  fin_cases hp <;> constructor <;> norm_num

theorem get_benchmark_prior_range (key : String) :
    (0.2 : ℚ) ≤ get_benchmark_prior key ∧ get_benchmark_prior key ≤ 0.7 := by
  unfold get_benchmark_prior clampQ
  rcases lookupD_cases BENCHMARK_ASR key 0.40 with h | ⟨p, hp, _, h⟩
  · rw [h]; norm_num
  · rw [h]
    obtain ⟨hl, hu⟩ := bench_table_range p hp
    rw [min_eq_right (le_trans hu (by norm_num)),
      max_eq_right (le_trans (by norm_num) hl)]
    exact ⟨hl, hu⟩

/-! ## C10 — `get_or_init` on a present id -/

/-- C10: for every posterior state and technique id already present in it,
`get_or_init` returns the stored posterior and the unchanged state,
ignoring the `base_score` and `benchmark_prior` arguments of that call;
hence it is idempotent and a later call with different priors never
alters α, β, or observations. -/
theorem get_or_init_existing (st : PosteriorState) (id : String)
    (p : TechniquePosterior) (h : st.find id = some p)
    (base base2 : ℚ) (bp bp2 : Option ℚ) :
    st.get_or_init id base bp = (st, p) ∧
    ((st.get_or_init id base bp).1).get_or_init id base2 bp2 = (st, p) := by
  have h1 : st.get_or_init id base bp = (st, p) := by
    unfold PosteriorState.get_or_init
    rw [h]
  refine ⟨h1, ?_⟩
  rw [h1]
  unfold PosteriorState.get_or_init
  rw [h]

/-- Witness for C10 at a concrete one-entry state. -/
theorem get_or_init_existing_witness :
    (PosteriorState.mk [("t1", ⟨"t1", 2, 3, 4⟩)] 8.0).get_or_init "t1" 0.9
      (some 0.1) = (PosteriorState.mk [("t1", ⟨"t1", 2, 3, 4⟩)] 8.0,
        ⟨"t1", 2, 3, 4⟩) :=
  (get_or_init_existing (PosteriorState.mk [("t1", ⟨"t1", 2, 3, 4⟩)] 8.0)
    "t1" ⟨"t1", 2, 3, 4⟩ rfl 0.9 0.9 (some 0.1) none).1

/-! ## C7 — signal-gain sub-score -/

/-- C7 counterexample: a technique with one conclusive and one inconclusive
prior attempt is "already decisively tested" in the claim's sense (it has
a conclusive prior result), yet the code scores it 0.5, not 0.1. -/
theorem signal_gain_mixed_counterexample :
    score_signal_gain (fixTech "T1")
      [fixEval "a1" "T1" (some true), fixEval "a2" "T1" none] = 0.5
  ∧ (∃ r ∈ [fixEval "a1" "T1" (some true), fixEval "a2" "T1" none],
      r.comparability.technique_id = (fixTech "T1").id ∧ r.success ≠ none)
  ∧ (0.5 : ℚ) ≠ 0.1 := by
  refine ⟨?_, ⟨fixEval "a1" "T1" (some true), ?_, ?_, ?_⟩, by norm_num⟩
  · simp [score_signal_gain, fixTech, fixEval, triedTechniqueIds]
  · simp
  · simp [fixEval, fixTech]
  · simp [fixEval]

/-- C7 (amended): the signal-gain sub-score is 0.7 when there are no prior
results at all, 1.0 when the technique does not appear in the prior
results, 0.5 when at least one of the technique's prior attempts was
inconclusive, and 0.1 when the technique appears and all of its prior
attempts were conclusive. -/
theorem signal_gain_cases (t : AttackTechnique)
    (rs : List EvaluationResult) :
    (rs = [] → score_signal_gain t rs = 0.7)
  ∧ (rs ≠ [] → t.id ∉ triedTechniqueIds rs → score_signal_gain t rs = 1.0)
  ∧ (t.id ∈ triedTechniqueIds rs →
      (∃ r ∈ rs, r.comparability.technique_id = t.id ∧ r.success = none) →
      score_signal_gain t rs = 0.5)
  ∧ (t.id ∈ triedTechniqueIds rs →
      (∀ r ∈ rs, r.comparability.technique_id = t.id → r.success ≠ none) →
      score_signal_gain t rs = 0.1) := by
  have hne : t.id ∈ triedTechniqueIds rs → rs ≠ [] := by
    intro hm
    rcases List.mem_map.1 hm with ⟨r, hr, _⟩
    exact List.ne_nil_of_mem hr
  refine ⟨fun h => by simp [score_signal_gain, h], fun h1 h2 => ?_, ?_, ?_⟩
  · simp [score_signal_gain, h1, h2]
  · intro hm ⟨r, hr, hid, hs⟩
    have h1 := hne hm
    have hpos : 0 < ((rs.filter
        (·.comparability.technique_id = t.id)).filter (·.success = none)).length := by
      apply List.length_pos.2
      have hmem : r ∈ (rs.filter
          (·.comparability.technique_id = t.id)).filter (·.success = none) := by
        simp only [List.mem_filter, decide_eq_true_eq]
        exact ⟨⟨hr, hid⟩, hs⟩
      exact List.ne_nil_of_mem hmem
    unfold score_signal_gain
    rw [if_neg h1, if_neg (by simpa using hm)]
    simp only []
    rw [if_pos hpos]
  · intro hm hall
    have h1 := hne hm
    have hzero : ((rs.filter
        (·.comparability.technique_id = t.id)).filter (·.success = none)) = [] := by
      apply List.eq_nil_iff_forall_not_mem.2
      intro r hr
      simp only [List.mem_filter, decide_eq_true_eq] at hr
      exact hall r hr.1.1 hr.1.2 hr.2
    unfold score_signal_gain
    rw [if_neg h1, if_neg (by simpa using hm)]
    simp only [hzero, List.length_nil]
    rw [if_neg (by norm_num)]

/-- Witness for C7's amended cases at concrete inputs. -/
theorem signal_gain_cases_witness :
    score_signal_gain (fixTech "T1") [] = 0.7
  ∧ score_signal_gain (fixTech "T1") [fixEval "a1" "T1" (some false)] = 0.1 :=
  ⟨(signal_gain_cases (fixTech "T1") []).1 rfl,
   (signal_gain_cases (fixTech "T1") [fixEval "a1" "T1" (some false)]).2.2.2
     (by decide) (by decide)⟩

/-! ## C6 — blended benchmark prior -/

/-- C6: with benchmark priors enabled the prior used to initialize a
posterior is `blend_weight · benchmark_asr(family) + (1 − blend_weight) ·
base`, and at the default blend weight 0.6 it always lies in
`[0.05, 0.95]`; with benchmark priors disabled the prior is the V1 base
score. -/
theorem blended_prior_spec (cfg : AdaptiveConfig) (t : AttackTechnique)
    (base : ℚ) (h0 : 0 ≤ base) (h1 : base ≤ 1) :
    (cfg.use_benchmark_priors = true →
      compute_blended_prior cfg t base =
        some (cfg.benchmark_blend_weight * get_benchmark_prior (family_key t)
          + (1 - cfg.benchmark_blend_weight) * base))
  ∧ (cfg.use_benchmark_priors = false →
      compute_blended_prior cfg t base = none ∧
      ∀ (k : ℚ) (id : String),
        ((PosteriorState.mk [] k).get_or_init id base
          (compute_blended_prior cfg t base)).2 =
          ⟨id, 1 + k * base, 1 + k * (1 - base), 0⟩)
  ∧ (cfg.use_benchmark_priors = true → cfg.benchmark_blend_weight = 0.6 →
      ∀ x, compute_blended_prior cfg t base = some x →
        0.05 ≤ x ∧ x ≤ 0.95) := by
  refine ⟨fun h => ?_, fun h => ?_, ?_⟩
  · unfold compute_blended_prior
    rw [if_neg (by simp [h])]
    congr 1
    norm_num
  · have hnone : compute_blended_prior cfg t base = none := by
      simp [compute_blended_prior, h]
    refine ⟨hnone, fun k id => ?_⟩
    rw [hnone]
    unfold PosteriorState.get_or_init PosteriorState.find
    simp only [List.find?_nil, Option.map_none', Option.getD_none]
    congr 1 <;> norm_num
  · intro h hw x hx
    simp [compute_blended_prior, h, hw] at hx
    obtain ⟨hbl, hbu⟩ := get_benchmark_prior_range (family_key t)
    constructor <;> [nlinarith; nlinarith]

/-- Witness for C6 at the default configuration and a concrete technique. -/
theorem blended_prior_spec_witness :
    compute_blended_prior fixCfg (fixTech "T1") (1 / 2) =
      some (fixCfg.benchmark_blend_weight *
        get_benchmark_prior (family_key (fixTech "T1"))
        + (1 - fixCfg.benchmark_blend_weight) * (1 / 2)) :=
  (blended_prior_spec fixCfg (fixTech "T1") (1 / 2) (by norm_num)
    (by norm_num)).1 rfl

/-! ## C3 — family spillover -/

theorem find?_setEntry_ne (l : List (String × TechniquePosterior))
    (sid id : String) (p : TechniquePosterior) (h : id ≠ sid) :
    (setEntry l sid p).find? (·.1 = id) = l.find? (·.1 = id) := by
  induction l with
  | nil => rfl
  | cons e es ih =>
    simp only [setEntry, List.map_cons] at *
    by_cases hid : e.1 = id
    · have hne : ¬ e.1 = sid := fun hh => h (hid ▸ hh)
      rw [if_neg hne, List.find?_cons_of_pos _ (by simp [hid]),
        List.find?_cons_of_pos _ (by simp [hid])]
    · have hfst : ((if e.1 = sid then (e.1, p) else e)).1 = e.1 := by
        split <;> rfl
      rw [List.find?_cons_of_neg _ (by simp [hfst, hid]),
        List.find?_cons_of_neg _ (by simp [hid])]
      exact ih

theorem find?_setEntry_self (l : List (String × TechniquePosterior))
    (sid : String) (p : TechniquePosterior)
    (h : (l.find? (·.1 = sid)).isSome) :
    ((setEntry l sid p).find? (·.1 = sid)).map (·.2) = some p := by
  induction l with
  | nil => simp at h
  | cons e es ih =>
    simp only [setEntry, List.map_cons]
    by_cases hsid : e.1 = sid
    · rw [if_pos hsid, List.find?_cons_of_pos _ (by simp [hsid])]
      rfl
    · rw [if_neg hsid, List.find?_cons_of_neg _ (by simp [hsid])]
      rw [List.find?_cons_of_neg _ (by simp [hsid])] at h
      exact ih h

theorem spilloverOne_present_eq (rate r : ℚ) (st : PosteriorState)
    (sid : String) (p : TechniquePosterior) (h : st.find sid = some p) :
    spilloverOne rate r st sid =
      { st with posteriors := setEntry st.posteriors sid
                  { p with alpha := p.alpha + r * rate,
                           beta := p.beta + (1.0 - r) * rate } } := by
  simp only [spilloverOne, h, Option.isSome_some, if_true]

theorem spilloverOne_absent_eq (rate r : ℚ) (st : PosteriorState)
    (sid : String) (h : st.find sid = none) :
    spilloverOne rate r st sid =
      { st with posteriors := setEntry
                  (st.posteriors ++ [(sid, ⟨sid, 1.0 + st.prior_strength * 0.5,
                    1.0 + st.prior_strength * (1.0 - 0.5), 0⟩)]) sid
                  ⟨sid, 1.0 + st.prior_strength * 0.5 + r * rate,
                    1.0 + st.prior_strength * (1.0 - 0.5) + (1.0 - r) * rate,
                    0⟩ } := by
  have hfn : st.posteriors.find? (·.1 = sid) = none := by
    have h2 := h
    unfold PosteriorState.find at h2
    exact Option.map_eq_none'.1 h2
  simp only [spilloverOne, h, Option.isSome_none, Bool.false_eq_true,
    if_false, PosteriorState.get_or_init, PosteriorState.find,
    List.find?_append, hfn, Option.none_or, Option.getD_some]
  simp [List.find?_cons, PosteriorState.find, hfn]

theorem spilloverOne_find_ne (rate r : ℚ) (st : PosteriorState)
    (sid id : String) (h : id ≠ sid) :
    (spilloverOne rate r st sid).find id = st.find id := by
  cases hst : st.find sid with
  | some p =>
    rw [spilloverOne_present_eq rate r st sid p hst]
    unfold PosteriorState.find
    dsimp only
    rw [find?_setEntry_ne _ _ _ _ h]
  | none =>
    rw [spilloverOne_absent_eq rate r st sid hst]
    unfold PosteriorState.find
    dsimp only
    rw [find?_setEntry_ne _ _ _ _ h, List.find?_append]
    have h2 : ([(sid, (⟨sid, 1.0 + st.prior_strength * 0.5,
        1.0 + st.prior_strength * (1.0 - 0.5), 0⟩ : TechniquePosterior))].find?
        (·.1 = id)) = none := by
      simp [Ne.symm h]
    rw [h2]
    simp

theorem spilloverOne_find_present (rate r : ℚ) (st : PosteriorState)
    (sid : String) (p : TechniquePosterior) (h : st.find sid = some p) :
    (spilloverOne rate r st sid).find sid =
      some { p with alpha := p.alpha + r * rate,
                    beta := p.beta + (1 - r) * rate } := by
  rw [spilloverOne_present_eq rate r st sid p h]
  unfold PosteriorState.find
  dsimp only
  have hs : (st.posteriors.find? (·.1 = sid)).isSome := by
    have h2 := h
    unfold PosteriorState.find at h2
    rcases Option.map_eq_some'.1 h2 with ⟨e, he, _⟩
    simp [he]
  rw [find?_setEntry_self st.posteriors sid _ hs]
  refine congrArg some ?_
  simp only [TechniquePosterior.mk.injEq]
  norm_num

theorem spilloverOne_obs (rate r : ℚ) (st : PosteriorState)
    (sid id : String) (p : TechniquePosterior) (h : st.find id = some p) :
    ∃ q, (spilloverOne rate r st sid).find id = some q ∧
      q.observations = p.observations := by
  by_cases hid : id = sid
  · subst hid
    refine ⟨_, spilloverOne_find_present rate r st id p h, rfl⟩
  · exact ⟨p, by rw [spilloverOne_find_ne rate r st sid id hid]; exact h, rfl⟩

theorem fold_spillover_not_mem (rate r : ℚ) (l : List String)
    (st : PosteriorState) (id : String) (h : id ∉ l) :
    (l.foldl (spilloverOne rate r) st).find id = st.find id := by
  induction l generalizing st with
  | nil => rfl
  | cons x xs ih =>
    simp only [List.foldl_cons]
    rw [ih _ (fun hm => h (List.mem_cons_of_mem _ hm))]
    exact spilloverOne_find_ne rate r st x id
      (fun he => h (he ▸ List.mem_cons_self x xs))

theorem fold_spillover_mem (rate r : ℚ) (l : List String) (hnd : l.Nodup)
    (st : PosteriorState) (sid : String) (p : TechniquePosterior)
    (hm : sid ∈ l) (hp : st.find sid = some p) :
    (l.foldl (spilloverOne rate r) st).find sid =
      some { p with alpha := p.alpha + r * rate,
                    beta := p.beta + (1 - r) * rate } := by
  induction l generalizing st with
  | nil => cases hm
  | cons x xs ih =>
    simp only [List.foldl_cons]
    rcases List.mem_cons.1 hm with he | hmem
    · subst he
      rw [fold_spillover_not_mem rate r xs _ sid (List.nodup_cons.1 hnd).1]
      exact spilloverOne_find_present rate r st sid p hp
    · have hne : sid ≠ x := fun he =>
        (List.nodup_cons.1 hnd).1 (he ▸ hmem)
      exact ih (List.nodup_cons.1 hnd).2 _ hmem
        (by rw [spilloverOne_find_ne rate r st x sid hne]; exact hp)

theorem fold_spillover_obs (rate r : ℚ) (l : List String)
    (st : PosteriorState) (id : String) (p : TechniquePosterior)
    (h : st.find id = some p) :
    ∃ q, (l.foldl (spilloverOne rate r) st).find id = some q ∧
      q.observations = p.observations := by
  induction l generalizing st p with
  | nil => exact ⟨p, h, rfl⟩
  | cons x xs ih =>
    rcases spilloverOne_obs rate r st x id p h with ⟨q, hq, hobs⟩
    rcases ih _ _ hq with ⟨q2, hq2, hobs2⟩
    exact ⟨q2, hq2, hobs2.trans hobs⟩

theorem get_siblings_nodup (catalog : List AttackTechnique) (tid : String) :
    (get_siblings catalog tid).Nodup := by
  unfold get_siblings
  cases catalog.find? (·.id = tid) with
  | none => exact List.nodup_nil
  | some t => exact List.nodup_dedup _

theorem not_mem_get_siblings (catalog : List AttackTechnique) (tid : String) :
    tid ∉ get_siblings catalog tid := by
  unfold get_siblings
  cases hf : catalog.find? (·.id = tid) with
  | none => simp
  | some t =>
    intro hmem
    rw [List.mem_dedup] at hmem
    rcases List.mem_map.1 hmem with ⟨u, hu, hid⟩
    rcases List.mem_filter.1 hu with ⟨_, hpred⟩
    simp only [decide_eq_true_eq] at hpred
    exact hpred.2 hid

/-- C3: propagating a reward `r` for technique `t` through its family adds
`spillover·r` to the alpha and `spillover·(1−r)` to the beta of every
sibling `s ≠ t`, leaves every posterior's observation count unchanged, and
never changes `t`'s own posterior entry. -/
theorem spillover_propagation (catalog : List AttackTechnique) (rate r : ℚ)
    (tid : String) (st : PosteriorState) :
    (propagate_update catalog rate tid r st).find tid = st.find tid
  ∧ (∀ sid p, sid ∈ get_siblings catalog tid → st.find sid = some p →
      (propagate_update catalog rate tid r st).find sid =
        some { p with alpha := p.alpha + r * rate,
                      beta := p.beta + (1 - r) * rate })
  ∧ (∀ id p, st.find id = some p →
      ∃ q, (propagate_update catalog rate tid r st).find id = some q ∧
        q.observations = p.observations) := by
  unfold propagate_update
  refine ⟨?_, ?_, ?_⟩
  · exact fold_spillover_not_mem rate r _ st tid (not_mem_get_siblings catalog tid)
  · intro sid p hmem hp
    exact fold_spillover_mem rate r _ (get_siblings_nodup catalog tid) st sid
      p hmem hp
  · intro id p h
    exact fold_spillover_obs rate r _ st id p h

/-- Witness for C3 in the S6 configuration: a 3-member family, spillover
0.3, reward 1 on `A`: sibling `B` gains exactly 0.3 of alpha, nothing of
beta, and keeps 0 observations. -/
theorem spillover_propagation_witness :
    "B" ∈ get_siblings [fixTech "A", fixTech "B", fixTech "C"] "A"
  ∧ (propagate_update [fixTech "A", fixTech "B", fixTech "C"] 0.3 "A" 1
      (PosteriorState.mk [("B", ⟨"B", 1, 1, 0⟩)] 8)).find "B" =
    some ⟨"B", 1 + 1 * 0.3, 1 + (1 - 1) * 0.3, 0⟩ := by
  have hmem : "B" ∈ get_siblings [fixTech "A", fixTech "B", fixTech "C"] "A" := by
    decide
  exact ⟨hmem, (spillover_propagation [fixTech "A", fixTech "B", fixTech "C"]
    0.3 1 "A" (PosteriorState.mk [("B", ⟨"B", 1, 1, 0⟩)] 8)).2.1 "B"
    ⟨"B", 1, 1, 0⟩ hmem rfl⟩

/-! ## C9 — Wilson statistics -/

theorem wilson_sqrt_bounds :
    (0.29 : ℝ) < Real.sqrt (5401 / 62500) ∧
    Real.sqrt (5401 / 62500) < 0.294 := by
  constructor
  · rw [show (0.29 : ℝ) = Real.sqrt (0.29 ^ 2) from
      (Real.sqrt_sq (by norm_num)).symm]
    exact Real.sqrt_lt_sqrt (by norm_num) (by norm_num)
  · rw [show (0.294 : ℝ) = Real.sqrt (0.294 ^ 2) from
      (Real.sqrt_sq (by norm_num)).symm]
    exact Real.sqrt_lt_sqrt (by norm_num) (by norm_num)

theorem wilson_center_3_5 : wilson_center 3 5 = 6151 / 11052 := by
  unfold wilson_center analyzer_z
  rw [if_neg (by norm_num)]
  norm_num

theorem wilson_interval_3_5 :
    wilson_interval 3 5 =
      (6151 / 11052 - (6125 / 5526) * Real.sqrt (5401 / 62500),
       6151 / 11052 + (6125 / 5526) * Real.sqrt (5401 / 62500)) := by
  obtain ⟨hs1, hs2⟩ := wilson_sqrt_bounds
  unfold wilson_interval analyzer_z
  rw [if_neg (by norm_num)]
  have harg : ((3 : ℕ) : ℝ) / ((5 : ℕ) : ℝ) *
      (1 - ((3 : ℕ) : ℝ) / ((5 : ℕ) : ℝ)) / ((5 : ℕ) : ℝ) +
      (1.96 : ℝ) ^ 2 / (4 * ((5 : ℕ) : ℝ) ^ 2) = 5401 / 62500 := by
    push_cast
    norm_num
  dsimp only
  rw [harg]
  have hA : ((3 : ℕ) : ℝ) / ((5 : ℕ) : ℝ) + (1.96 : ℝ) ^ 2 / (2 * ((5 : ℕ) : ℝ)) =
      6151 / 6250 := by push_cast; norm_num
  have hD : (1 : ℝ) + (1.96 : ℝ) ^ 2 / ((5 : ℕ) : ℝ) = 5526 / 3125 := by
    push_cast; norm_num
  rw [hA, hD]
  have hc : (6151 / 6250 : ℝ) / (5526 / 3125) = 6151 / 11052 := by norm_num
  have hcoef : (1.96 : ℝ) / (5526 / 3125) = 6125 / 5526 := by norm_num
  rw [hc, hcoef]
  refine Prod.ext ?_ ?_
  · exact max_eq_right (by nlinarith)
  · exact min_eq_right (by nlinarith)

/-- C9 counterexample: with the analyzer's `z = 1.96`, five attempts with
three successes give Wilson center `6151/11052 ≈ 0.5566` — more than 0.01
away from the claimed ≈ 0.5714 — and the interval's upper end exceeds
0.86, so the interval is not a subset of `[0.235, 0.860]`. -/
theorem wilson_s5_counterexample :
    wilson_center 3 5 = 6151 / 11052
  ∧ |(6151 / 11052 : ℝ) - 0.5714| > 1 / 100
  ∧ (wilson_interval 3 5).2 > 0.86 := by
  obtain ⟨hs1, hs2⟩ := wilson_sqrt_bounds
  refine ⟨wilson_center_3_5, ?_, ?_⟩
  · rw [abs_sub_comm, abs_of_pos (by norm_num)]
    norm_num
  · rw [wilson_interval_3_5]
    dsimp only
    nlinarith

/-- C9 (amended): for every surface with `n ≥ 1` attempts of which `s`
succeeded, the analyzer's smoothed rate and interval equal the spec's
Wilson formulas with `z = 1.96`; in particular for `n = 5, s = 3` the
center is `6151/11052 ≈ 0.5566` and the interval is a subset of
`[0.23, 0.885]`. -/
theorem wilson_matches_spec (s n : ℕ) (h : 1 ≤ n) :
    wilson_center s n = spec_wilson_center s n
  ∧ wilson_interval s n = spec_wilson_interval s n
  ∧ wilson_center 3 5 = 6151 / 11052
  ∧ 0.23 ≤ (wilson_interval 3 5).1 ∧ (wilson_interval 3 5).2 ≤ 0.885 := by
  obtain ⟨hs1, hs2⟩ := wilson_sqrt_bounds
  have hn : n ≠ 0 := Nat.one_le_iff_ne_zero.1 h
  refine ⟨?_, ?_, wilson_center_3_5, ?_, ?_⟩
  · unfold wilson_center spec_wilson_center analyzer_z
    rw [if_neg hn]
  · unfold wilson_interval spec_wilson_interval analyzer_z
    rw [if_neg hn]
  · rw [wilson_interval_3_5]
    dsimp only
    nlinarith
  · rw [wilson_interval_3_5]
    dsimp only
    nlinarith

/-- Witness for C9's amended statement at `s = 3`, `n = 5`. -/
theorem wilson_matches_spec_witness :
    wilson_center 3 5 = spec_wilson_center 3 5 :=
  (wilson_matches_spec 3 5 (by norm_num)).1

/-! ## C8 — campaign-id validation on persistence paths -/

theorem concat_of_getLast? {l : List Char} {c : Char}
    (h : l.getLast? = some c) : ∃ t, l = t ++ [c] := by
  induction l with
  | nil => simp at h
  | cons a l ih =>
    cases l with
    | nil =>
      have hc : a = c := by simpa [List.getLast?] using h
      exact ⟨[], by rw [hc]; rfl⟩
    | cons b l2 =>
      rw [List.getLast?_cons_cons] at h
      obtain ⟨t, ht⟩ := ih h
      exact ⟨a :: t, by rw [List.cons_append, ← ht]⟩

/-- `_SAFE_ID_RE.match` characterised: a non-empty safe-character run,
optionally closed by one trailing newline (Python's `$`). -/
theorem isSafeCampaignId_iff (id : String) :
    isSafeCampaignId id = true ↔
      (id.data ≠ [] ∧ id.data.all isSafeIdChar = true)
    ∨ (∃ t, id.data = t ++ ['\n'] ∧ t ≠ [] ∧ t.all isSafeIdChar = true) := by
  have hnl : isSafeIdChar '\n' = false := by decide
  unfold isSafeCampaignId
  by_cases h : id.data.getLast? = some '\n'
  · rw [if_pos h]
    obtain ⟨t, ht⟩ := concat_of_getLast? h
    rw [ht, List.dropLast_concat]
    simp only [Bool.and_eq_true, decide_eq_true_eq, List.all_append,
      List.all_cons, List.all_nil, hnl, Bool.false_and, Bool.and_false]
    constructor
    · rintro ⟨hne, hall⟩
      exact Or.inr ⟨t, rfl, hne, hall⟩
    · rintro (⟨hne, hall⟩ | ⟨t2, ht2, hne2, hall2⟩)
      · exact absurd hall (by simp)
      · have ht3 : t2 = t := by
          have h3 := congrArg List.dropLast ht2
          rw [List.dropLast_concat, List.dropLast_concat] at h3
          exact h3.symm
        rw [← ht3]
        exact ⟨hne2, hall2⟩
  · rw [if_neg h]
    simp only [Bool.and_eq_true, decide_eq_true_eq]
    constructor
    · rintro ⟨hne, hall⟩
      exact Or.inl ⟨hne, hall⟩
    · rintro (⟨hne, hall⟩ | ⟨t, ht, hne2, hall2⟩)
      · exact ⟨hne, hall⟩
      · exact absurd (by rw [ht]; exact List.getLast?_concat t) h

/-- C8 counterexample: the id `".."` fails the `[A-Za-z0-9_-]+` pattern,
yet the snapshot recorder's record/load/list operations accept it without
validation and derive a path that escapes the campaign directory; and the
manager's own save path accepts `"c1\n"` — whose trailing newline the
pattern `[A-Za-z0-9_-]+` does not match — because Python's `$` also
matches just before a final newline. -/
theorem recorder_no_validation_counterexample :
    isSafeCampaignId ".." = false
  ∧ recorderRecordFs ".." 0 = .ok "../snapshots/step_0000.json"
  ∧ recorderLoadFs ".." 0 = .ok "../snapshots/step_0000.json"
  ∧ recorderListFs ".." = .ok "../snapshots"
  ∧ "c1\n".data.all isSafeIdChar = false
  ∧ managerSaveFs true "c1\n" = .ok (some "c1\n.json") := by
  refine ⟨by decide, rfl, rfl, rfl, by decide, rfl⟩

/-- C8 (amended): campaign-file save and load reject an id with an error
before any filesystem operation exactly when `_SAFE_ID_RE.match` fails —
the id must be a non-empty run of `[A-Za-z0-9_-]` characters, optionally
followed by one trailing newline (the extra match point Python's `$`
grants) — while the snapshot recorder's record, load, and list
operations perform no id validation and always proceed to a filesystem
path derived from the raw id. -/
theorem persistence_id_validation (id : String) (b : Bool) :
    ((∃ e, managerSaveFs b id = .error e) ↔ isSafeCampaignId id = false)
  ∧ ((∃ e, managerLoadFs b id = .error e) ↔ isSafeCampaignId id = false)
  ∧ (isSafeCampaignId id = true ↔
      (id.data ≠ [] ∧ id.data.all isSafeIdChar = true)
    ∨ (∃ t, id.data = t ++ ['\n'] ∧ t ≠ [] ∧ t.all isSafeIdChar = true))
  ∧ (∀ n, ∃ p, recorderRecordFs id n = .ok p)
  ∧ (∀ n, ∃ p, recorderLoadFs id n = .ok p)
  ∧ (∃ p, recorderListFs id = .ok p) := by
  have hvalF : isSafeCampaignId id = false →
      managerSaveFs b id = .error ("Invalid campaign_id " ++ id
        ++ ": must be alphanumeric, hyphens, underscores only")
      ∧ managerLoadFs b id = .error ("Invalid campaign_id " ++ id
        ++ ": must be alphanumeric, hyphens, underscores only") := by
    intro hs
    unfold managerSaveFs managerLoadFs validate_campaign_id
    rw [hs]
    exact ⟨rfl, rfl⟩
  have hvalT : isSafeCampaignId id = true →
      managerSaveFs b id = .ok (if b then some (id ++ ".json") else none)
      ∧ managerLoadFs b id = .ok (if b then some (id ++ ".json") else none)
        := by
    intro hs
    unfold managerSaveFs managerLoadFs validate_campaign_id
    rw [hs]
    exact ⟨rfl, rfl⟩
  refine ⟨⟨?_, fun hs => ⟨_, (hvalF hs).1⟩⟩, ⟨?_, fun hs => ⟨_, (hvalF hs).2⟩⟩,
    isSafeCampaignId_iff id, fun n => ⟨_, rfl⟩, fun n => ⟨_, rfl⟩, ⟨_, rfl⟩⟩
  · rintro ⟨e, he⟩
    cases hs : isSafeCampaignId id with
    | false => rfl
    | true => rw [(hvalT hs).1] at he; simp at he
  · rintro ⟨e, he⟩
    cases hs : isSafeCampaignId id with
    | false => rfl
    | true => rw [(hvalT hs).2] at he; simp at he

/-- Witness for C8's amended statement: `".."` is rejected by save,
`"c1\n"` passes the gate despite its trailing newline, and the recorder
lists `".."` unchecked. -/
theorem persistence_id_validation_witness :
    (∃ e, managerSaveFs true ".." = .error e)
  ∧ isSafeCampaignId "c1\n" = true
  ∧ (∃ p, recorderListFs ".." = .ok p) :=
  ⟨(persistence_id_validation ".." true).1.2 (by decide), by decide,
   (persistence_id_validation ".." true).2.2.2.2.2⟩

/-! ## C4 — phase transition machinery -/

theorem assoc_put_find_self {α : Type} (l : List (String × α)) (id : String)
    (v : α) :
    (((if (l.find? (·.1 = id)).isSome then
        l.map (fun e => if e.1 = id then (e.1, v) else e)
      else l ++ [(id, v)]).find? (·.1 = id)).map (·.2)) = some v := by
  by_cases hs : (l.find? (·.1 = id)).isSome
  · rw [if_pos hs]
    induction l with
    | nil => simp at hs
    | cons e es ih =>
      by_cases he : e.1 = id
      · simp only [List.map_cons, if_pos he]
        rw [List.find?_cons_of_pos _ (by simp [he])]
        rfl
      · simp only [List.map_cons, if_neg he]
        rw [List.find?_cons_of_neg _ (by simp [he])]
        rw [List.find?_cons_of_neg _ (by simp [he])] at hs
        exact ih hs
  · rw [if_neg hs]
    have hn : l.find? (·.1 = id) = none := Option.not_isSome_iff_eq_none.1 hs
    rw [List.find?_append, hn, Option.none_or,
      List.find?_cons_of_pos _ (by simp)]
    rfl

theorem find?_mapIf_ne {α : Type} (l : List (String × α)) (id : String)
    (v : α) (id2 : String) (h : id2 ≠ id) :
    ((l.map (fun e => if e.1 = id then (e.1, v) else e)).find?
      (·.1 = id2)) = l.find? (·.1 = id2) := by
  induction l with
  | nil => rfl
  | cons e es ih =>
    simp only [List.map_cons]
    by_cases h2 : e.1 = id2
    · have hne : ¬ e.1 = id := fun hh => h (h2 ▸ hh)
      rw [if_neg hne, List.find?_cons_of_pos _ (by simp [h2]),
        List.find?_cons_of_pos _ (by simp [h2])]
    · have hfst : ((if e.1 = id then (e.1, v) else e)).1 = e.1 := by
        split <;> rfl
      rw [List.find?_cons_of_neg _ (by simp [hfst, h2]),
        List.find?_cons_of_neg _ (by simp [h2])]
      exact ih

theorem assoc_put_find_ne {α : Type} (l : List (String × α)) (id : String)
    (v : α) (id2 : String) (h : id2 ≠ id) :
    ((if (l.find? (·.1 = id)).isSome then
        l.map (fun e => if e.1 = id then (e.1, v) else e)
      else l ++ [(id, v)]).find? (·.1 = id2)) = l.find? (·.1 = id2) := by
  by_cases hs : (l.find? (·.1 = id)).isSome
  · rw [if_pos hs]
    exact find?_mapIf_ne l id v id2 h
  · rw [if_neg hs, List.find?_append]
    have h2 : ([(id, v)].find? (·.1 = id2)) = none := by
      simp [Ne.symm h]
    rw [h2]
    simp

theorem getCampaign_putCampaign_self (m : ManagerState) (c : Campaign) :
    (m.putCampaign c).getCampaign c.id = some c := by
  unfold ManagerState.putCampaign ManagerState.getCampaign
  exact assoc_put_find_self m.campaigns c.id c

theorem getCampaign_putCampaign_ne (m : ManagerState) (c : Campaign)
    (id : String) (h : id ≠ c.id) :
    (m.putCampaign c).getCampaign id = m.getCampaign id := by
  unfold ManagerState.putCampaign ManagerState.getCampaign
  exact congrArg (Option.map _) (assoc_put_find_ne m.campaigns c.id c id h)

theorem counter_putCounter_self (m : ManagerState) (id : String) (n : ℕ) :
    (m.putCounter id n).counter id = n := by
  unfold ManagerState.putCounter ManagerState.counter
  rw [assoc_put_find_self m.counters id n]
  rfl

theorem counter_putCounter_ne (m : ManagerState) (id : String) (n : ℕ)
    (id2 : String) (h : id2 ≠ id) :
    (m.putCounter id n).counter id2 = m.counter id2 := by
  unfold ManagerState.putCounter ManagerState.counter
  rw [assoc_put_find_ne m.counters id n id2 h]

theorem getCampaign_putCounter (m : ManagerState) (id : String) (n : ℕ)
    (id2 : String) :
    (m.putCounter id n).getCampaign id2 = m.getCampaign id2 := rfl

theorem counter_putCampaign (m : ManagerState) (c : Campaign) (id : String) :
    (m.putCampaign c).counter id = m.counter id := rfl

theorem wf_putCampaign (m : ManagerState) (c : Campaign) (hwf : m.WF) :
    (m.putCampaign c).WF := by
  unfold ManagerState.WF ManagerState.putCampaign at *
  intro e he
  dsimp only at he
  by_cases hs : (m.campaigns.find? (·.1 = c.id)).isSome
  · rw [if_pos hs] at he
    rcases List.mem_map.1 he with ⟨f, hf, hfe⟩
    by_cases hfc : f.1 = c.id
    · rw [if_pos hfc] at hfe
      rw [← hfe]
      exact hfc.symm
    · rw [if_neg hfc] at hfe
      exact hfe ▸ hwf f hf
  · rw [if_neg hs] at he
    rcases List.mem_append.1 he with hm | hm
    · exact hwf e hm
    · rcases List.mem_singleton.1 hm with rfl
      rfl

theorem getCampaign_putCampaign (m : ManagerState) (c : Campaign)
    (id : String) (h : c.id = id) :
    (m.putCampaign c).getCampaign id = some c :=
  h ▸ getCampaign_putCampaign_self m c

theorem getCampaign_ifAppend (x : ManagerState) (b : Bool)
    (e : String × ℕ × DecisionSnapshot) (id : String) :
    (if b then x.appendSnapshot e else x).getCampaign id =
      x.getCampaign id := by
  cases b <;> rfl

theorem counter_ifAppend (x : ManagerState) (b : Bool)
    (e : String × ℕ × DecisionSnapshot) (id : String) :
    (if b then x.appendSnapshot e else x).counter id = x.counter id := by
  cases b <;> rfl

/-- The phase and step counter after one `recommend_next`: the counter is
bumped, and the stored campaign's phase follows `_should_transition`
evaluated on the bumped counter; the campaign's result state is otherwise
untouched (same id, same `CampaignState`). -/
theorem recommend_next_phase {σ : Type} (bv : σ → ℚ → ℚ → ℚ × σ)
    (fsqrt : ℚ → ℚ) (seedInit : ℕ → σ) (planner : Option AdaptiveConfig)
    (catalog : List AttackTechnique) (rec : Bool) (pyh : String → ℕ)
    (m : ManagerState) (id : String) (c : Campaign)
    (h : m.getCampaign id = some c) (hid : c.id = id)
    (k : ℕ) (et : Bool) (rp : ℚ) (ad : Option Bool) :
    (((managerRecommend bv fsqrt seedInit planner catalog rec pyh m id
        k et rp ad).2.getCampaign id).map (·.phase) =
      some (if should_transition catalog
        (m.putCounter id (m.counter id + 1)) c then .exploit else c.phase))
  ∧ (((managerRecommend bv fsqrt seedInit planner catalog rec pyh m id
        k et rp ad).2.getCampaign id).map (·.state) = some c.state)
  ∧ (((managerRecommend bv fsqrt seedInit planner catalog rec pyh m id
        k et rp ad).2.getCampaign id).map (·.id) = some c.id)
  ∧ ((managerRecommend bv fsqrt seedInit planner catalog rec pyh m id
        k et rp ad).2.counter id = m.counter id + 1) := by
  have hcount : (m.putCounter id (m.counter id + 1)).counter id =
      m.counter id + 1 := counter_putCounter_self m id _
  rcases hA : ad.getD c.adaptive with _ | _ <;>
    rcases hP : planner with _ | pcfg <;>
    rcases hS : c.posterior_state with _ | ps <;>
    rcases hT : should_transition catalog
      (m.putCounter id (m.counter id + 1)) c with _ | _ <;>
  · simp only [managerRecommend, h, hA, hP, hS, hT, if_true, if_false,
      Bool.false_eq_true]
    refine ⟨?_, ?_, ?_, ?_⟩ <;>
      first
      | (rw [getCampaign_ifAppend,
          getCampaign_putCampaign _ _ id (by exact hid), Option.map_some']
         try rfl)
      | (rw [getCampaign_putCampaign _ _ id (by exact hid), Option.map_some']
         try rfl)
      | (rw [counter_ifAppend]; exact hcount)
      | exact hcount

theorem getCampaign_wf_id (m : ManagerState) (hwf : m.WF) (id : String)
    (c : Campaign) (h : m.getCampaign id = some c) : c.id = id := by
  unfold ManagerState.getCampaign at h
  rcases Option.map_eq_some'.1 h with ⟨e, he, hce⟩
  have h1 : e.1 = id := by simpa using List.find?_some he
  have h2 := hwf e (List.mem_of_find?_eq_some he)
  rw [← hce]
  exact h2.trans h1

theorem should_transition_exploit (catalog : List AttackTechnique)
    (m : ManagerState) (c : Campaign) (hph : c.phase = .exploit) :
    should_transition catalog m c = false := by
  unfold should_transition
  rw [if_pos (by simp [hph])]

theorem wf_putCounter (m : ManagerState) (id : String) (n : ℕ)
    (hwf : m.WF) : (m.putCounter id n).WF := hwf

theorem wf_appendSnapshot (m : ManagerState)
    (e : String × ℕ × DecisionSnapshot) (hwf : m.WF) :
    (m.appendSnapshot e).WF := hwf

theorem wf_ifAppend (m : ManagerState) (b : Bool)
    (e : String × ℕ × DecisionSnapshot) (hwf : m.WF) :
    (if b then m.appendSnapshot e else m).WF := by
  cases b <;> exact hwf

theorem recommend_getCampaign_ne {σ : Type} (bv : σ → ℚ → ℚ → ℚ × σ)
    (fsqrt : ℚ → ℚ) (seedInit : ℕ → σ) (planner : Option AdaptiveConfig)
    (catalog : List AttackTechnique) (rec : Bool) (pyh : String → ℕ)
    (m : ManagerState) (hwf : m.WF) (id id2 : String) (h : id2 ≠ id)
    (k : ℕ) (et : Bool) (rp : ℚ) (ad : Option Bool) :
    (managerRecommend bv fsqrt seedInit planner catalog rec pyh m id
      k et rp ad).2.getCampaign id2 = m.getCampaign id2 := by
  cases hc : m.getCampaign id with
  | none => simp only [managerRecommend, hc]
  | some c =>
    have hid : c.id = id := getCampaign_wf_id m hwf id c hc
    rcases hA : ad.getD c.adaptive with _ | _ <;>
      rcases hP : planner with _ | pcfg <;>
      rcases hS : c.posterior_state with _ | ps <;>
      rcases hT : should_transition catalog
        (m.putCounter id (m.counter id + 1)) c with _ | _ <;>
    · simp only [managerRecommend, hc, hA, hP, hS, hT, if_true, if_false,
        Bool.false_eq_true]
      first
      | (rw [getCampaign_ifAppend,
          getCampaign_putCampaign_ne _ _ id2 (by exact hid ▸ h),
          getCampaign_putCounter])
      | (rw [getCampaign_putCampaign_ne _ _ id2 (by exact hid ▸ h),
          getCampaign_putCounter])

theorem ingest_getCampaign_ne (planner : Option AdaptiveConfig)
    (catalog : List AttackTechnique) (m : ManagerState) (hwf : m.WF)
    (id id2 : String) (h : id2 ≠ id) (atts : List AttemptResult)
    (evs : List EvaluationResult) :
    (managerIngest planner catalog m id atts evs).getCampaign id2 =
      m.getCampaign id2 := by
  cases hc : m.getCampaign id with
  | none => simp only [managerIngest, hc]
  | some c =>
    have hid : c.id = id := getCampaign_wf_id m hwf id c hc
    rcases hA : c.adaptive with _ | _ <;>
      rcases hP : planner with _ | pcfg <;>
      rcases hS : c.posterior_state with _ | ps <;>
    · simp only [managerIngest, hc, hA, hP, hS]
      exact getCampaign_putCampaign_ne _ _ id2 (by exact hid ▸ h)

theorem ingest_phase_self (planner : Option AdaptiveConfig)
    (catalog : List AttackTechnique) (m : ManagerState) (id : String)
    (c : Campaign) (hc : m.getCampaign id = some c) (hid : c.id = id)
    (atts : List AttemptResult) (evs : List EvaluationResult) :
    ((managerIngest planner catalog m id atts evs).getCampaign id).map
      (·.phase) = some c.phase := by
  rcases hA : c.adaptive with _ | _ <;>
    rcases hP : planner with _ | pcfg <;>
    rcases hS : c.posterior_state with _ | ps <;>
  · simp only [managerIngest, hc, hA, hP, hS]
    rw [getCampaign_putCampaign _ _ id (by exact hid), Option.map_some']

theorem create_getCampaign_ne {σ : Type} (bv : σ → ℚ → ℚ → ℚ × σ)
    (fsqrt : ℚ → ℚ) (seedInit : ℕ → σ) (planner : Option AdaptiveConfig)
    (catalog : List AttackTechnique) (m : ManagerState)
    (campaign_id : String) (target : TargetProfile) (auto_plan adaptive : Bool)
    (seed : Option ℕ) (fresh : ℕ) (id2 : String) (h : id2 ≠ campaign_id) :
    (managerCreate bv fsqrt seedInit planner catalog m campaign_id target
      auto_plan adaptive seed fresh).getCampaign id2 =
      m.getCampaign id2 := by
  unfold managerCreate
  rw [getCampaign_putCounter]
  exact getCampaign_putCampaign_ne _ _ id2 (by exact h)

theorem setStatus_getCampaign_ne (m : ManagerState) (hwf : m.WF)
    (id id2 : String) (h : id2 ≠ id) (status : CampaignStatus) :
    (managerUpdateStatus m id status).getCampaign id2 =
      m.getCampaign id2 := by
  cases hc : m.getCampaign id with
  | none => simp only [managerUpdateStatus, hc]
  | some c =>
    have hid : c.id = id := getCampaign_wf_id m hwf id c hc
    simp only [managerUpdateStatus, hc]
    exact getCampaign_putCampaign_ne _ _ id2 (by exact hid ▸ h)

theorem setStatus_phase_self (m : ManagerState) (id : String) (c : Campaign)
    (hc : m.getCampaign id = some c) (hid : c.id = id)
    (status : CampaignStatus) :
    ((managerUpdateStatus m id status).getCampaign id).map (·.phase) =
      some c.phase := by
  simp only [managerUpdateStatus, hc]
  rw [getCampaign_putCampaign _ _ id (by exact hid), Option.map_some']

theorem wf_mgrStep {σ : Type} (bv : σ → ℚ → ℚ → ℚ × σ) (fsqrt : ℚ → ℚ)
    (seedInit : ℕ → σ) (planner : Option AdaptiveConfig)
    (catalog : List AttackTechnique) (rec : Bool) (pyh : String → ℕ)
    (m : ManagerState) (hwf : m.WF) (op : MgrOp) :
    (mgrStep bv fsqrt seedInit planner catalog rec pyh m op).WF := by
  cases op with
  | create id target auto adaptive seed fresh =>
    exact wf_putCounter _ _ _ (wf_putCampaign _ _ hwf)
  | ingest id atts evs =>
    cases hc : m.getCampaign id with
    | none => simpa only [mgrStep, managerIngest, hc] using hwf
    | some c =>
      rcases hA : c.adaptive with _ | _ <;>
        rcases hP : planner with _ | pcfg <;>
        rcases hS : c.posterior_state with _ | ps <;>
      · simp only [mgrStep, managerIngest, hc, hA, hP, hS]
        exact wf_putCampaign _ _ hwf
  | recommend id k et rp ad =>
    cases hc : m.getCampaign id with
    | none => simpa only [mgrStep, managerRecommend, hc] using hwf
    | some c =>
      rcases hA : ad.getD c.adaptive with _ | _ <;>
        rcases hP : planner with _ | pcfg <;>
        rcases hS : c.posterior_state with _ | ps <;>
        rcases hT : should_transition catalog
          (m.putCounter id (m.counter id + 1)) c with _ | _ <;>
      · simp only [mgrStep, managerRecommend, hc, hA, hP, hS, hT, if_true,
          if_false, Bool.false_eq_true]
        first
        | exact wf_ifAppend _ _ _ (wf_putCampaign _ _ (wf_putCounter _ _ _ hwf))
        | exact wf_putCampaign _ _ (wf_putCounter _ _ _ hwf)
  | set_status id status =>
    cases hc : m.getCampaign id with
    | none => simpa only [mgrStep, managerUpdateStatus, hc] using hwf
    | some c =>
      simp only [mgrStep, managerUpdateStatus, hc]
      exact wf_putCampaign _ _ hwf

/-- One manager operation (other than re-creating the campaign) never
moves an EXPLOIT campaign back to PROBE. -/
theorem phase_exploit_step {σ : Type} (bv : σ → ℚ → ℚ → ℚ × σ)
    (fsqrt : ℚ → ℚ) (seedInit : ℕ → σ) (planner : Option AdaptiveConfig)
    (catalog : List AttackTechnique) (rec : Bool) (pyh : String → ℕ)
    (m : ManagerState) (hwf : m.WF) (id : String) (c : Campaign)
    (h : m.getCampaign id = some c) (hph : c.phase = .exploit)
    (op : MgrOp) (hop : ¬ op.isCreateFor id) :
    ∃ c', (mgrStep bv fsqrt seedInit planner catalog rec pyh m op).getCampaign
        id = some c' ∧ c'.phase = .exploit := by
  have hid : c.id = id := getCampaign_wf_id m hwf id c h
  cases op with
  | create id' target auto adaptive seed fresh =>
    have hne : id ≠ id' := fun he => hop (by simpa [MgrOp.isCreateFor] using he.symm)
    refine ⟨c, ?_, hph⟩
    show (managerCreate bv fsqrt seedInit planner catalog m id' target auto
      adaptive seed fresh).getCampaign id = some c
    rw [create_getCampaign_ne bv fsqrt seedInit planner catalog m id' target
      auto adaptive seed fresh id hne]
    exact h
  | ingest id' atts evs =>
    by_cases hii : id = id'
    · subst hii
      have := ingest_phase_self planner catalog m id c h hid atts evs
      rcases Option.map_eq_some'.1 this with ⟨c', hc', hph'⟩
      exact ⟨c', hc', hph'.trans hph⟩
    · refine ⟨c, ?_, hph⟩
      show (managerIngest planner catalog m id' atts evs).getCampaign id = some c
      rw [ingest_getCampaign_ne planner catalog m hwf id' id hii atts evs]
      exact h
  | recommend id' k et rp ad =>
    by_cases hii : id = id'
    · subst hii
      have hrec := (recommend_next_phase bv fsqrt seedInit planner catalog rec
        pyh m id c h hid k et rp ad).1
      rw [should_transition_exploit catalog _ c hph] at hrec
      simp only [Bool.false_eq_true, if_false] at hrec
      rcases Option.map_eq_some'.1 hrec with ⟨c', hc', hph'⟩
      exact ⟨c', hc', hph'.trans hph⟩
    · refine ⟨c, ?_, hph⟩
      show (managerRecommend bv fsqrt seedInit planner catalog rec pyh m id'
        k et rp ad).2.getCampaign id = some c
      rw [recommend_getCampaign_ne bv fsqrt seedInit planner catalog rec pyh
        m hwf id' id hii k et rp ad]
      exact h
  | set_status id' status =>
    by_cases hii : id = id'
    · subst hii
      have := setStatus_phase_self m id c h hid status
      rcases Option.map_eq_some'.1 this with ⟨c', hc', hph'⟩
      exact ⟨c', hc', hph'.trans hph⟩
    · refine ⟨c, ?_, hph⟩
      show (managerUpdateStatus m id' status).getCampaign id = some c
      rw [setStatus_getCampaign_ne m hwf id' id hii status]
      exact h

/-- A whole run of operations (none of them re-creating the campaign)
keeps an EXPLOIT campaign in EXPLOIT. -/
theorem phase_exploit_run {σ : Type} (bv : σ → ℚ → ℚ → ℚ × σ)
    (fsqrt : ℚ → ℚ) (seedInit : ℕ → σ) (planner : Option AdaptiveConfig)
    (catalog : List AttackTechnique) (rec : Bool) (pyh : String → ℕ)
    (ops : List MgrOp) (m : ManagerState) (hwf : m.WF) (id : String)
    (hops : ∀ op ∈ ops, ¬ op.isCreateFor id) (c : Campaign)
    (h : m.getCampaign id = some c) (hph : c.phase = .exploit) :
    ∃ c', (ops.foldl (mgrStep bv fsqrt seedInit planner catalog rec pyh)
        m).getCampaign id = some c' ∧ c'.phase = .exploit := by
  revert m hwf hops c h hph
  induction ops with
  | nil =>
    intro m _ _ c h hph
    exact ⟨c, h, hph⟩
  | cons op ops ih =>
    intro m hwf hops c h hph
    rcases phase_exploit_step bv fsqrt seedInit planner catalog rec pyh m hwf
      id c h hph op (hops op (List.mem_cons_self op ops)) with ⟨c1, hc1, hph1⟩
    simp only [List.foldl_cons]
    exact ih (mgrStep bv fsqrt seedInit planner catalog rec pyh m op)
      (wf_mgrStep bv fsqrt seedInit planner catalog rec pyh m hwf op)
      (fun o ho => hops o (List.mem_cons_of_mem _ ho)) c1 hc1 hph1

theorem should_transition_probe_iff (catalog : List AttackTechnique)
    (m' : ManagerState) (c : Campaign) (hph : c.phase = .probe) :
    (should_transition catalog m' c = true) ↔
      (3 ≤ m'.counter c.id ∨ 0.6 ≤ surfaceFraction catalog c) := by
  unfold should_transition
  rw [if_neg (by simp [hph])]
  by_cases h3 : 3 ≤ m'.counter c.id
  · simp [h3]
  · simp [h3, surfaceFraction, ge_iff_le]

theorem should_transition_fresh (catalog : List AttackTechnique)
    (m' : ManagerState) (c : Campaign) (hph : c.phase = .probe)
    (htried : c.state.techniques_tried = []) (hcnt : m'.counter c.id ≤ 2) :
    should_transition catalog m' c = false := by
  unfold should_transition
  rw [if_neg (by simp [hph]), if_neg (by omega)]
  simp only [htried, List.filterMap_nil, List.dedup_nil, List.length_nil,
    Nat.cast_zero]
  rw [decide_eq_false_iff_not]
  norm_num

theorem should_transition_counter3 (catalog : List AttackTechnique)
    (m' : ManagerState) (c : Campaign) (hph : c.phase = .probe)
    (hcnt : 3 ≤ m'.counter c.id) :
    should_transition catalog m' c = true := by
  unfold should_transition
  rw [if_neg (by simp [hph]), if_pos hcnt]

theorem wf_create {σ : Type} (bv : σ → ℚ → ℚ → ℚ × σ) (fsqrt : ℚ → ℚ)
    (seedInit : ℕ → σ) (planner : Option AdaptiveConfig)
    (catalog : List AttackTechnique) (m : ManagerState) (hwf : m.WF)
    (cid : String) (target : TargetProfile) (auto adaptive : Bool)
    (seed : Option ℕ) (fresh : ℕ) :
    (managerCreate bv fsqrt seedInit planner catalog m cid target auto
      adaptive seed fresh).WF := by
  unfold managerCreate
  exact wf_putCounter _ _ _ (wf_putCampaign _ _ hwf)

theorem create_fresh_campaign {σ : Type} (bv : σ → ℚ → ℚ → ℚ × σ)
    (fsqrt : ℚ → ℚ) (seedInit : ℕ → σ) (planner : Option AdaptiveConfig)
    (catalog : List AttackTechnique) (m : ManagerState) (cid : String)
    (target : TargetProfile) (auto adaptive : Bool) (seed : Option ℕ)
    (fresh : ℕ) :
    (((managerCreate bv fsqrt seedInit planner catalog m cid target auto
        adaptive seed fresh).getCampaign cid).map (·.phase) =
      some CampaignPhase.probe)
  ∧ (((managerCreate bv fsqrt seedInit planner catalog m cid target auto
        adaptive seed fresh).getCampaign cid).map (·.state) =
      some ({} : CampaignState))
  ∧ ((managerCreate bv fsqrt seedInit planner catalog m cid target auto
        adaptive seed fresh).counter cid = 0) := by
  unfold managerCreate
  refine ⟨?_, ?_, counter_putCounter_self _ _ _⟩ <;>
  · rw [getCampaign_putCounter,
      getCampaign_putCampaign _ _ cid (by exact rfl), Option.map_some']

/-- One `recommend_next` on a PROBE campaign with no tried techniques and
at most one earlier call leaves it in PROBE with the counter bumped. -/
theorem recommend_fresh_step {σ : Type} (bv : σ → ℚ → ℚ → ℚ × σ)
    (fsqrt : ℚ → ℚ) (seedInit : ℕ → σ) (planner : Option AdaptiveConfig)
    (catalog : List AttackTechnique) (rec : Bool) (pyh : String → ℕ)
    (m : ManagerState) (hwf : m.WF) (id : String) (c : Campaign)
    (h : m.getCampaign id = some c) (hph : c.phase = .probe)
    (htried : c.state.techniques_tried = []) (hcnt : m.counter id ≤ 1)
    (k : ℕ) (et : Bool) (rp : ℚ) (ad : Option Bool) :
    ∃ c', (managerRecommend bv fsqrt seedInit planner catalog rec pyh m id
        k et rp ad).2.getCampaign id = some c'
      ∧ c'.phase = .probe ∧ c'.state.techniques_tried = []
      ∧ (managerRecommend bv fsqrt seedInit planner catalog rec pyh m id
          k et rp ad).2.counter id = m.counter id + 1 := by
  have hid : c.id = id := getCampaign_wf_id m hwf id c h
  obtain ⟨hp, hs, _, hc⟩ := recommend_next_phase bv fsqrt seedInit planner
    catalog rec pyh m id c h hid k et rp ad
  have hT : should_transition catalog
      (m.putCounter id (m.counter id + 1)) c = false := by
    refine should_transition_fresh catalog _ c hph htried ?_
    rw [hid, counter_putCounter_self]
    omega
  rw [hT] at hp
  simp only [Bool.false_eq_true, if_false] at hp
  rw [hph] at hp
  obtain ⟨c', hc', hphc'⟩ := Option.map_eq_some'.1 hp
  rw [hc'] at hs
  refine ⟨c', hc', hphc', ?_, hc⟩
  have : c'.state = c.state := by simpa using hs
  rw [this, htried]

/-- C4: during `recommend_next` on a PROBE campaign the phase becomes
EXPLOIT iff the bumped step counter is ≥ 3 or at least 60% of surfaces are
covered by tried techniques; the transition is monotone under every
operation sequence that does not re-create the campaign; and three
successive `recommend_next` calls on a freshly created campaign leave it
in EXPLOIT. -/
theorem phase_transition_machine {σ : Type} (bv : σ → ℚ → ℚ → ℚ × σ)
    (fsqrt : ℚ → ℚ) (seedInit : ℕ → σ) (planner : Option AdaptiveConfig)
    (catalog : List AttackTechnique) (rec : Bool) (pyh : String → ℕ) :
    (∀ (m : ManagerState), m.WF → ∀ id c, m.getCampaign id = some c →
      c.phase = .probe → ∀ (k : ℕ) (et : Bool) (rp : ℚ) (ad : Option Bool),
        ((((managerRecommend bv fsqrt seedInit planner catalog rec pyh m id k
            et rp ad).2.getCampaign id).map (·.phase) =
          some CampaignPhase.exploit)
        ↔ (3 ≤ m.counter id + 1 ∨ 0.6 ≤ surfaceFraction catalog c)))
  ∧ (∀ (ops : List MgrOp) (m : ManagerState), m.WF → ∀ id,
      (∀ op ∈ ops, ¬ op.isCreateFor id) → ∀ c,
      m.getCampaign id = some c → c.phase = .exploit →
      ∃ c', (ops.foldl (mgrStep bv fsqrt seedInit planner catalog rec pyh)
          m).getCampaign id = some c' ∧ c'.phase = .exploit)
  ∧ (∀ (m : ManagerState), m.WF →
      ∀ (cid : String) (target : TargetProfile) (auto adaptive : Bool)
        (seed : Option ℕ) (fresh : ℕ) (k1 k2 k3 : ℕ) (et1 et2 et3 : Bool)
        (rp1 rp2 rp3 : ℚ) (ad1 ad2 ad3 : Option Bool),
      (((managerRecommend bv fsqrt seedInit planner catalog rec pyh
          (managerRecommend bv fsqrt seedInit planner catalog rec pyh
            (managerRecommend bv fsqrt seedInit planner catalog rec pyh
              (managerCreate bv fsqrt seedInit planner catalog m cid target
                auto adaptive seed fresh)
              cid k1 et1 rp1 ad1).2
            cid k2 et2 rp2 ad2).2
          cid k3 et3 rp3 ad3).2.getCampaign cid).map (·.phase) =
        some CampaignPhase.exploit)) := by
  refine ⟨?_, ?_, ?_⟩
  · intro m hwf id c h hph k et rp ad
    have hid : c.id = id := getCampaign_wf_id m hwf id c h
    have hp := (recommend_next_phase bv fsqrt seedInit planner catalog rec
      pyh m id c h hid k et rp ad).1
    rw [hp]
    have hiff := should_transition_probe_iff catalog
      (m.putCounter id (m.counter id + 1)) c hph
    rw [hid, counter_putCounter_self] at hiff
    constructor
    · intro heq
      apply hiff.1
      by_contra hF
      rw [Bool.not_eq_true] at hF
      rw [hF] at heq
      simp only [Bool.false_eq_true, if_false, hph] at heq
      exact CampaignPhase.noConfusion (Option.some.inj heq)
    · intro hcond
      rw [hiff.2 hcond]
      rfl
  · intro ops m hwf id hops c h hph
    exact phase_exploit_run bv fsqrt seedInit planner catalog rec pyh ops m
      hwf id hops c h hph
  · intro m hwf cid target auto adaptive seed fresh k1 k2 k3 et1 et2 et3
      rp1 rp2 rp3 ad1 ad2 ad3
    obtain ⟨hph0, hst0, hcnt0⟩ := create_fresh_campaign bv fsqrt seedInit
      planner catalog m cid target auto adaptive seed fresh
    have hwf0 := wf_create bv fsqrt seedInit planner catalog m hwf cid
      target auto adaptive seed fresh
    obtain ⟨c0, hc0, hphc0⟩ := Option.map_eq_some'.1 hph0
    have hstc0 : c0.state.techniques_tried = [] := by
      rw [hc0] at hst0
      have : c0.state = {} := by simpa using hst0
      rw [this]
    obtain ⟨c1, hc1, hphc1, hst1, hcn1⟩ := recommend_fresh_step bv fsqrt
      seedInit planner catalog rec pyh _ hwf0 cid c0 hc0 hphc0 hstc0
      (by omega) k1 et1 rp1 ad1
    have hwf1 : (managerRecommend bv fsqrt seedInit planner catalog rec pyh
        (managerCreate bv fsqrt seedInit planner catalog m cid target auto
          adaptive seed fresh) cid k1 et1 rp1 ad1).2.WF :=
      wf_mgrStep bv fsqrt seedInit planner catalog rec pyh _ hwf0
        (.recommend cid k1 et1 rp1 ad1)
    obtain ⟨c2, hc2, hphc2, hst2, hcn2⟩ := recommend_fresh_step bv fsqrt
      seedInit planner catalog rec pyh _ hwf1 cid c1 hc1 hphc1 hst1
      (by omega) k2 et2 rp2 ad2
    have hwf2 : (managerRecommend bv fsqrt seedInit planner catalog rec pyh
        (managerRecommend bv fsqrt seedInit planner catalog rec pyh
          (managerCreate bv fsqrt seedInit planner catalog m cid target auto
            adaptive seed fresh) cid k1 et1 rp1 ad1).2
        cid k2 et2 rp2 ad2).2.WF :=
      wf_mgrStep bv fsqrt seedInit planner catalog rec pyh _ hwf1
        (.recommend cid k2 et2 rp2 ad2)
    have hid2 : c2.id = cid := getCampaign_wf_id _ hwf2 cid c2 hc2
    have hp3 := (recommend_next_phase bv fsqrt seedInit planner catalog rec
      pyh _ cid c2 hc2 hid2 k3 et3 rp3 ad3).1
    have hT3 : should_transition catalog
        ((managerRecommend bv fsqrt seedInit planner catalog rec pyh
          (managerRecommend bv fsqrt seedInit planner catalog rec pyh
            (managerCreate bv fsqrt seedInit planner catalog m cid target
              auto adaptive seed fresh)
            cid k1 et1 rp1 ad1).2
          cid k2 et2 rp2 ad2).2.putCounter cid
          ((managerRecommend bv fsqrt seedInit planner catalog rec pyh
            (managerRecommend bv fsqrt seedInit planner catalog rec pyh
              (managerCreate bv fsqrt seedInit planner catalog m cid target
                auto adaptive seed fresh)
              cid k1 et1 rp1 ad1).2
            cid k2 et2 rp2 ad2).2.counter cid + 1)) c2 = true := by
      refine should_transition_counter3 catalog _ c2 hphc2 ?_
      rw [hid2, counter_putCounter_self, hcn2, hcn1, hcnt0]
    rw [hT3] at hp3
    simpa using hp3

/-- Witness for C4 at a concrete empty manager and fixture target: three
recommendations on a fresh campaign end in EXPLOIT. -/
theorem phase_transition_machine_witness :
    Option.map (·.phase)
      ((managerRecommend constBv zeroSqrt unitSeed none [] false zeroHash
        (managerRecommend constBv zeroSqrt unitSeed none [] false zeroHash
          (managerRecommend constBv zeroSqrt unitSeed none [] false zeroHash
            (managerCreate constBv zeroSqrt unitSeed none []
              ({} : ManagerState) "c1" fixTarget false false none 0)
            "c1" 5 false 0 none).2
          "c1" 5 false 0 none).2
        "c1" 5 false 0 none).2.getCampaign "c1") =
      some CampaignPhase.exploit :=
  (phase_transition_machine constBv zeroSqrt unitSeed none [] false
    zeroHash).2.2 {} (fun e he => absurd he (List.not_mem_nil e)) "c1"
    fixTarget false false none 0 5 5 5 false false false 0 0 0 none none none

/-! ## C5 — exclude_tried semantics -/

theorem mem_insertDesc (key : Candidate → ℚ) (x y : Candidate)
    (l : List Candidate) (h : x ∈ insertDesc key y l) : x = y ∨ x ∈ l := by
  induction l with
  | nil => simpa [insertDesc] using h
  | cons z zs ih =>
    unfold insertDesc at h
    split at h
    · rcases List.mem_cons.1 h with hz | hm
      · exact Or.inr (hz ▸ List.mem_cons_self z zs)
      · rcases ih hm with h1 | h2
        · exact Or.inl h1
        · exact Or.inr (List.mem_cons_of_mem z h2)
    · rcases List.mem_cons.1 h with hz | hm
      · exact Or.inl hz
      · exact Or.inr hm

theorem mem_stableSortDesc (key : Candidate → ℚ) (x : Candidate)
    (l : List Candidate) (h : x ∈ stableSortDesc key l) : x ∈ l := by
  unfold stableSortDesc at h
  suffices haux : ∀ (l2 : List Candidate) (acc : List Candidate),
      x ∈ l2.foldl (fun a y => insertDesc key y a) acc →
      x ∈ acc ∨ x ∈ l2 by
    rcases haux l [] h with h1 | h2
    · cases h1
    · exact h2
  intro l2
  induction l2 with
  | nil => exact fun acc h2 => Or.inl h2
  | cons y ys ih =>
    intro acc h2
    rcases ih (insertDesc key y acc) h2 with h1 | h3
    · rcases mem_insertDesc key x y acc h1 with h4 | h5
      · exact Or.inr (h4 ▸ List.mem_cons_self y ys)
      · exact Or.inl h5
    · exact Or.inr (List.mem_cons_of_mem y h3)

theorem fold_exclude_invariant {σ : Type} (bv : σ → ℚ → ℚ → ℚ × σ)
    (cfg : AdaptiveConfig) (target : TargetProfile)
    (pr : List EvaluationResult) (rp igw cw : ℚ) (ft : FamilyTracker)
    (l : List AttackTechnique) (acc : ScoreAcc σ)
    (h : ∀ cd ∈ acc.cands, cd.technique.id ∉ triedTechniqueIds pr) :
    ∀ cd ∈ (l.foldl (scoreStep bv cfg target pr true rp igw cw ft)
      acc).cands, cd.technique.id ∉ triedTechniqueIds pr := by
  induction l generalizing acc with
  | nil => exact h
  | cons t ts ih =>
    simp only [List.foldl_cons]
    apply ih
    unfold scoreStep
    by_cases hm : t.id ∈ triedTechniqueIds pr
    · rw [if_pos (by exact ⟨rfl, hm⟩)]
      exact h
    · rw [if_neg (by intro hc; exact hm hc.2)]
      intro cd hcd
      rcases List.mem_append.1 hcd with h1 | h2
      · exact h cd h1
      · rcases List.mem_singleton.1 h2 with rfl
        exact hm

/-- C5 (amended): with `exclude_tried = true` the adaptive planner never
emits a technique id that occurs among the evaluations passed as prior
results (their `comparability.technique_id` values).  That is the tried
set the code consults; ids recorded in the campaign's
`state.techniques_tried` by attempts that have no matching evaluation are
not excluded, and the V1 fallback branch of `recommend_next` ignores
`exclude_tried` entirely. -/
theorem exclude_tried_excludes {σ : Type} (bv : σ → ℚ → ℚ → ℚ × σ)
    (fsqrt : ℚ → ℚ) (seedInit : ℕ → σ) (cfg : AdaptiveConfig)
    (target : TargetProfile) (catalog : List AttackTechnique)
    (ps : Option PosteriorState) (pr : List EvaluationResult) (k : ℕ)
    (rp : ℚ) (ft : Option FamilyTracker) (step : ℕ)
    (phase : CampaignPhase) :
    ∀ e ∈ (planAdaptive bv fsqrt seedInit cfg target catalog ps pr k true
      rp ft step phase).1.entries, e.technique_id ∉ triedTechniqueIds pr := by
  intro e he
  unfold planAdaptive at he
  simp only [List.mem_map] at he
  rcases he with ⟨ic, hic, rfl⟩
  show (buildEntry fsqrt cfg catalog _ _ ic.2).technique_id ∉ _
  rw [List.mem_enum_iff_getElem?] at hic
  have h2 := List.take_subset _ _ (List.getElem?_mem hic)
  have h3 := mem_stableSortDesc _ _ _ h2
  exact fold_exclude_invariant bv cfg target pr rp _ _ _ _ _
    (fun cd hcd => absurd hcd (List.not_mem_nil cd)) ic.2 h3

/-- Witness for C5's amended statement on a concrete one-technique
catalog: every emitted id avoids the evaluation-derived tried set. -/
theorem exclude_tried_excludes_witness :
    ((planAdaptive constBv zeroSqrt unitSeed fixCfg fixTarget
      [fixTech "T1"] none [fixEval "a1" "T2" (some true)] 10 true 0 none 0
      .probe).1.entries.map (·.technique_id)).all
      (fun i => decide (i ∉ triedTechniqueIds
        [fixEval "a1" "T2" (some true)])) = true := by
  rw [List.all_eq_true]
  intro x hx
  rcases List.mem_map.1 hx with ⟨e, he, rfl⟩
  exact decide_eq_true (exclude_tried_excludes constBv zeroSqrt unitSeed
    fixCfg fixTarget [fixTech "T1"] none [fixEval "a1" "T2" (some true)] 10
    0 none 0 .probe e he)

/-- C5 counterexample: a technique attempted but never evaluated sits in
the campaign's tried set, yet `recommend_next` with `exclude_tried=true`
still recommends it — exclusion reads the evaluations, not
`state.techniques_tried`. -/
theorem exclude_tried_counterexample :
    ((managerRecommend constBv zeroSqrt unitSeed (some fixCfg)
        [fixTech "T1"] false zeroHash
        (managerIngest (some fixCfg) [fixTech "T1"]
          (managerCreate constBv zeroSqrt unitSeed (some fixCfg)
            [fixTech "T1"] ({} : ManagerState) "c1" fixTarget false true
            (some 42) 0)
          "c1" [fixAttempt "a1" "T1"] [])
        "c1" 5 true 0 none).2.getCampaign "c1").map
      (fun c => c.state.techniques_tried) = some ["T1"]
  ∧ ((managerRecommend constBv zeroSqrt unitSeed (some fixCfg)
        [fixTech "T1"] false zeroHash
        (managerIngest (some fixCfg) [fixTech "T1"]
          (managerCreate constBv zeroSqrt unitSeed (some fixCfg)
            [fixTech "T1"] ({} : ManagerState) "c1" fixTarget false true
            (some 42) 0)
          "c1" [fixAttempt "a1" "T1"] [])
        "c1" 5 true 0 none).1).map
      (fun p => p.entries.map (·.technique_id)) = some ["T1"] := by
  have hget : (managerIngest (some fixCfg) [fixTech "T1"]
      (managerCreate constBv zeroSqrt unitSeed (some fixCfg) [fixTech "T1"]
        ({} : ManagerState) "c1" fixTarget false true (some 42) 0)
      "c1" [fixAttempt "a1" "T1"] []).getCampaign "c1" =
      some { id := "c1", name := "campaign-c1", status := .planning,
             phase := .probe, target := fixTarget, plan := none,
             state := { attempts := [fixAttempt "a1" "T1"],
                        evaluations := [], techniques_tried := ["T1"],
                        queries_used := 1 },
             posterior_state := some {}, adaptive := true,
             campaign_seed := some 42 } := rfl
  have hT : should_transition [fixTech "T1"]
      ((managerIngest (some fixCfg) [fixTech "T1"]
        (managerCreate constBv zeroSqrt unitSeed (some fixCfg)
          [fixTech "T1"] ({} : ManagerState) "c1" fixTarget false true
          (some 42) 0)
        "c1" [fixAttempt "a1" "T1"] []).putCounter "c1"
        ((managerIngest (some fixCfg) [fixTech "T1"]
          (managerCreate constBv zeroSqrt unitSeed (some fixCfg)
            [fixTech "T1"] ({} : ManagerState) "c1" fixTarget false true
            (some 42) 0)
          "c1" [fixAttempt "a1" "T1"] []).counter "c1" + 1))
      { id := "c1", name := "campaign-c1", status := .planning,
        phase := .probe, target := fixTarget, plan := none,
        state := { attempts := [fixAttempt "a1" "T1"],
                   evaluations := [], techniques_tried := ["T1"],
                   queries_used := 1 },
        posterior_state := some {}, adaptive := true,
        campaign_seed := some 42 } = false := by
    unfold should_transition
    rw [if_neg (by simp)]
    rw [if_neg (by
      rw [show (managerIngest (some fixCfg) [fixTech "T1"]
        (managerCreate constBv zeroSqrt unitSeed (some fixCfg)
          [fixTech "T1"] ({} : ManagerState) "c1" fixTarget false true
          (some 42) 0)
        "c1" [fixAttempt "a1" "T1"] []).counter "c1" = 0 from rfl]
      rw [counter_putCounter_self]
      omega)]
    simp only [List.filterMap_cons, List.filterMap_nil]
    norm_num [fixTech]
  have hfilt : [fixTech "T1"].filter
      (fun t => passes_all_filters t fixTarget &&
        t.base_cost ≤ fixCfg.max_cost) = [fixTech "T1"] := by
    simp only [List.filter_cons, List.filter_nil]
    rw [if_pos]
    simp only [passes_all_filters, is_target_type_compatible,
      is_access_sufficient, is_within_budget, is_goal_relevant, fixTech,
      fixTarget, fixCfg]
    norm_num [ACCESS_ORDER]
  constructor <;>
  · unfold managerRecommend
    rw [hget]
    dsimp only
    rw [hT]
    simp only [Bool.false_eq_true, if_false, Option.getD_none,
      Option.getD_some, Option.map_some']
    unfold planAdaptive
    rw [hfilt]
    rfl

/-! ## C1 — snapshot replay fidelity -/

theorem map_eq_singleton {α β : Type} {f : α → β} {l : List α} {y : β}
    (h : l.map f = [y]) : ∃ a, l = [a] ∧ f a = y := by
  cases l with
  | nil => simp at h
  | cons a l2 =>
    cases l2 with
    | nil => exact ⟨a, rfl, by simpa using h⟩
    | cons b l3 => simp at h

theorem half_gap_divergent (w : ℚ) :
    |(w - 1 / 2) - (w - 0.0)| > 1 / 1000000 := by
  have h : (w - 1 / 2) - (w - 0.0) = -(1 / 2 : ℚ) := by ring
  rw [h, abs_neg, abs_of_pos (by norm_num)]
  norm_num

/-- In a single-technique catalog that survives the filters, with the
technique's posterior already present, `planAdaptive` emits exactly one
entry whose utility is the shared utility expression minus the repeat
penalty iff the technique id occurs among the prior results' technique
ids — and the posterior state comes back unchanged. -/
theorem plan_singleton_utilities {σ : Type} (bv : σ → ℚ → ℚ → ℚ × σ)
    (fsqrt : ℚ → ℚ) (seedInit : ℕ → σ) (cfg : AdaptiveConfig)
    (t : AttackTechnique) (target : TargetProfile) (ps : PosteriorState)
    (p : TechniquePosterior) (hps : ps.find t.id = some p)
    (hflt : [t].filter
      (fun u => passes_all_filters u target && u.base_cost ≤ cfg.max_cost)
        = [t])
    (pr : List EvaluationResult) (k : ℕ) (hk : 1 ≤ k) (rp : ℚ)
    (ft : FamilyTracker) (step : ℕ) (phase : CampaignPhase) :
    (planAdaptive bv fsqrt seedInit cfg target [t] (some ps) pr k false rp
        (some ft) step phase).1.entries.map
        (fun e => (e.technique_id, e.score.utility)) =
      [(t.id, some (compute_utility
          ((bv (seedInit (derive_step_seed cfg.campaign_seed step))
            p.alpha p.beta).1)
          (compute_impact_weight t target.goals) (compute_cost t cfg.max_cost)
          (phase_cost_weight cfg phase)
          (compute_info_gain p * phase_info_gain_weight cfg phase)
          (compute_detection_penalty t * cfg.detection_penalty_weight)
          (ft.compute_diversity_bonus t)
        - (if t.id ∈ triedTechniqueIds pr then rp else 0.0)))]
  ∧ (planAdaptive bv fsqrt seedInit cfg target [t] (some ps) pr k false rp
      (some ft) step phase).2 = ps := by
  obtain ⟨m, rfl⟩ : ∃ n, k = n + 1 := ⟨k - 1, by omega⟩
  have hgo : ps.get_or_init t.id (compute_v1_base_score t target pr)
      (compute_blended_prior cfg t (compute_v1_base_score t target pr))
        = (ps, p) := by
    unfold PosteriorState.get_or_init
    rw [hps]
  rcases hbv : bv (seedInit (derive_step_seed cfg.campaign_seed step))
      p.alpha p.beta with ⟨samp, rng2⟩
  constructor <;>
  · simp only [planAdaptive, hflt, Option.getD_some, List.foldl_cons,
      List.foldl_nil, scoreStep, Bool.false_eq_true, false_and, if_false,
      hgo, hbv, List.nil_append, stableSortDesc, insertDesc,
      List.take_succ_cons, List.take_nil, List.enum_cons,
      List.enumFrom_nil, List.map_cons, List.map_nil, buildEntry]

/-- C1: the replay-fidelity claim fails on the shipped code.  A snapshot
recorded by `recommend_next` carries a `planner_config` with no
`campaign_seed` entry (the planner's `config_used` never writes that
key), and `verify` — run with the very planner instance that produced
the plan — still reports a divergence: `replay` re-plans with
`prior_results=[]`, so the repeat penalty charged to the original
utilities is dropped and the utilities differ by the full penalty. -/
theorem replay_divergence_bug :
    (managerRecommend constBv zeroSqrt unitSeed (some fixCfg) [fixTech "T1"]
        true zeroHash
        (managerIngest (some fixCfg) [fixTech "T1"]
          (managerCreate constBv zeroSqrt unitSeed (some fixCfg)
            [fixTech "T1"] ({} : ManagerState) "c1" fixTarget false true
            (some 42) 0)
          "c1" [fixAttempt "a1" "T1"] [fixEval "a1" "T1" (some true)])
        "c1" 5 false (1/2) none).2.snapshots.map
      (fun e => e.2.2.planner_config.campaign_seed) = [none]
  ∧ (managerRecommend constBv zeroSqrt unitSeed (some fixCfg) [fixTech "T1"]
        true zeroHash
        (managerIngest (some fixCfg) [fixTech "T1"]
          (managerCreate constBv zeroSqrt unitSeed (some fixCfg)
            [fixTech "T1"] ({} : ManagerState) "c1" fixTarget false true
            (some 42) 0)
          "c1" [fixAttempt "a1" "T1"] [fixEval "a1" "T1" (some true)])
        "c1" 5 false (1/2) none).2.snapshots.map
      (fun e => (verifyDecision constBv zeroSqrt unitSeed [fixTech "T1"]
        (some fixCfg) 7 e.2.2 fixTarget).1) = [false] := by
  set M1 := managerIngest (some fixCfg) [fixTech "T1"]
    (managerCreate constBv zeroSqrt unitSeed (some fixCfg) [fixTech "T1"]
      ({} : ManagerState) "c1" fixTarget false true (some 42) 0)
    "c1" [fixAttempt "a1" "T1"] [fixEval "a1" "T1" (some true)] with hM1
  set PS1 := update_posteriors fixCfg {} [fixEval "a1" "T1" (some true)]
    [fixTech "T1"] fixTarget with hPS1
  have hget : M1.getCampaign "c1" =
      some { id := "c1", name := "campaign-c1", status := .planning,
             phase := .probe, target := fixTarget, plan := none,
             state := { attempts := [fixAttempt "a1" "T1"],
                        evaluations := [fixEval "a1" "T1" (some true)],
                        techniques_tried := ["T1"], queries_used := 1 },
             posterior_state := some PS1, adaptive := true,
             campaign_seed := some 42 } := rfl
  have hT : should_transition [fixTech "T1"]
      (M1.putCounter "c1" (M1.counter "c1" + 1))
      { id := "c1", name := "campaign-c1", status := .planning,
        phase := .probe, target := fixTarget, plan := none,
        state := { attempts := [fixAttempt "a1" "T1"],
                   evaluations := [fixEval "a1" "T1" (some true)],
                   techniques_tried := ["T1"], queries_used := 1 },
        posterior_state := some PS1, adaptive := true,
        campaign_seed := some 42 } = false := by
    unfold should_transition
    rw [if_neg (by simp)]
    rw [if_neg (by
      rw [show M1.counter "c1" = 0 from rfl]
      rw [counter_putCounter_self]
      omega)]
    simp only [List.filterMap_cons, List.filterMap_nil]
    norm_num [fixTech]
  have hflt : [fixTech "T1"].filter
      (fun t => passes_all_filters t fixTarget &&
        t.base_cost ≤ fixCfg.max_cost) = [fixTech "T1"] := by
    simp only [List.filter_cons, List.filter_nil]
    rw [if_pos]
    simp only [passes_all_filters, is_target_type_compatible,
      is_access_sufficient, is_within_budget, is_goal_relevant, fixTech,
      fixTarget, fixCfg]
    norm_num [ACCESS_ORDER]
  obtain ⟨P1, hps⟩ : ∃ p, PS1.find (fixTech "T1").id = some p := ⟨_, rfl⟩
  refine ⟨?_, ?_⟩
  · unfold managerRecommend
    rw [hget]
    dsimp only
    rw [hT]
    simp only [Bool.false_eq_true, if_false, Option.getD_none,
      Option.getD_some, Option.map_some']
    rfl
  · unfold managerRecommend
    rw [hget]
    dsimp only
    rw [hT]
    simp only [Bool.false_eq_true, if_false, if_true, Option.getD_none,
      Option.getD_some, Option.map_some']
    simp only [ManagerState.appendSnapshot, ManagerState.putCampaign,
      ManagerState.putCounter]
    rw [show M1.snapshots = [] from rfl]
    simp only [List.nil_append, List.map_cons, List.map_nil,
      List.cons.injEq, and_true]
    obtain ⟨h1m, h1s⟩ := plan_singleton_utilities constBv zeroSqrt unitSeed
      fixCfg (fixTech "T1") fixTarget PS1 P1 hps hflt
      [fixEval "a1" "T1" (some true)] 5 (by norm_num) (1/2)
      (trackerFromTried [fixTech "T1"] ["T1"]) (M1.counter "c1")
      CampaignPhase.probe
    obtain ⟨e1, hE1, hfe1⟩ := map_eq_singleton h1m
    rw [Prod.mk.injEq] at hfe1
    obtain ⟨he1id, he1u⟩ := hfe1
    have hcu : (planAdaptive constBv zeroSqrt unitSeed fixCfg fixTarget
        [fixTech "T1"] (some PS1) [fixEval "a1" "T1" (some true)] 5 false
        (1/2) (some (trackerFromTried [fixTech "T1"] ["T1"]))
        (M1.counter "c1") CampaignPhase.probe).1.config_used =
      some { adaptive := true, step_number := M1.counter "c1",
             step_seed := derive_step_seed fixCfg.campaign_seed
               (M1.counter "c1"),
             prior_strength := fixCfg.prior_strength,
             cost_weight := fixCfg.cost_weight, exclude_tried := false,
             repeat_penalty := 1/2,
             campaign_phase := CampaignPhase.probe.value } := rfl
    simp only [verifyDecision, replayDecision]
    rw [hcu]
    simp only [configUsedToDict, Option.getD_some]
    rw [if_neg (show ¬ (CampaignPhase.probe.value = "exploit") from
      by decide)]
    rw [h1s]
    rw [hE1]
    obtain ⟨h2m, h2s⟩ := plan_singleton_utilities constBv zeroSqrt unitSeed
      fixCfg (fixTech "T1") fixTarget PS1 P1 hps hflt
      ([] : List EvaluationResult) [e1].length (by simp) (1/2)
      (trackerFromTried [fixTech "T1"] ["T1"]) (M1.counter "c1")
      CampaignPhase.probe
    obtain ⟨e2, hE2, hfe2⟩ := map_eq_singleton h2m
    rw [Prod.mk.injEq] at hfe2
    obtain ⟨he2id, he2u⟩ := hfe2
    rw [hE2]
    rw [if_neg (show ¬ ([e1].length ≠ [e2].length) from by simp)]
    simp only [List.zip_cons_cons, List.zip_nil_left, List.enum_cons,
      List.enumFrom_nil, List.foldl_cons, List.foldl_nil]
    rw [he1id, he2id]
    rw [if_neg (show ¬ ((fixTech "T1").id ≠ (fixTech "T1").id) from
      by simp)]
    rw [he1u, he2u]
    rw [if_pos (show (fixTech "T1").id ∈
      triedTechniqueIds [fixEval "a1" "T1" (some true)] from by decide)]
    rw [if_neg (show ¬ ((fixTech "T1").id ∈
      triedTechniqueIds ([] : List EvaluationResult)) from
      by simp [triedTechniqueIds])]
    dsimp only
    rw [if_pos (half_gap_divergent _)]
    simp

/-! ## C2 — planner determinism and step seeding -/

/-- C2: two invocations of the adaptive planner with identical inputs
(target, catalog, posterior state, configuration, results, flags, step and
phase, and the same sampler implementation) produce identical plans —
entries, utilities, confidence intervals and rationales included — and the
plan's recorded step seed is the first 32 bits of
`SHA-256("campaign_seed:step_number")`, the only value from which the
sampling generator is seeded. -/
theorem plan_deterministic {σ : Type} (bv : σ → ℚ → ℚ → ℚ × σ)
    (fsqrt : ℚ → ℚ) (seedInit : ℕ → σ) (cfg : AdaptiveConfig)
    (target : TargetProfile) (catalog : List AttackTechnique)
    (ps : Option PosteriorState) (pr : List EvaluationResult) (k : ℕ)
    (et : Bool) (rp : ℚ) (ft : Option FamilyTracker) (step : ℕ)
    (phase : CampaignPhase) :
    planAdaptive bv fsqrt seedInit cfg target catalog ps pr k et rp ft
        step phase =
      planAdaptive bv fsqrt seedInit cfg target catalog ps pr k et rp ft
        step phase
  ∧ (planAdaptive bv fsqrt seedInit cfg target catalog ps pr k et rp ft
        step phase).1.config_used =
      some { adaptive := true, step_number := step,
             step_seed := derive_step_seed cfg.campaign_seed step,
             prior_strength := cfg.prior_strength,
             cost_weight := cfg.cost_weight, exclude_tried := et,
             repeat_penalty := rp, campaign_phase := phase.value } :=
  ⟨rfl, rfl⟩

end AdversaryPilot
